import Mathlib

/-!
Verification of the vip-manage membership-ledger backend.

The development shallowly embeds the ledger / chain-rebuild core of
`packages/backend/src/index.ts`, the referral engine of
`packages/backend/src/modules/referral/service.ts`, and the in-process
login rate limiter, and proves the specified properties about them.

Modelling conventions:
* JavaScript numbers holding unix timestamps, day counts and money minor
  units are embedded as `Int` (all involved quantities stay far below
  2^53, where JS arithmetic on integers is exact).
* Database rows are lists of structures; SQL `ORDER BY` is insertion
  sort by the same key; `crypto.randomUUID()` primary keys are embedded
  as `Nat` ids drawn from a fresh-id counter (the code never relies on
  the textual shape of an id, only on equality and on the `ORDER BY id`
  tie-break, for which any totally ordered id type is adequate).
* The chain rebuild is per user: `rebuildUserRechargeChain` reads and
  writes only rows `WHERE user_id = ?`, so a single user's chain is an
  exact projection of the multi-user table and is modelled directly.
-/

namespace VipManage

/-- `RechargeReason` enum of `packages/shared/src/enums/common.ts`. -/
inductive RechargeReason where
  | wechatPay
  | alipay
  | platformOrder
  | referralReward
  | campaignGift
  | afterSales
  | manualFix
  deriving DecidableEq, Repr

/-- `RechargeRecordSource` enum of `packages/shared/src/enums/common.ts`. -/
inductive RechargeRecordSource where
  | normal
  | backfill
  | systemBonus
  | refundRollback
  deriving DecidableEq, Repr

/-- `SECONDS_PER_DAY` of `index.ts`. -/
def SECONDS_PER_DAY : Int := 24 * 60 * 60

/-- `MAX_RECHARGE_DAYS` of `index.ts`. -/
def MAX_RECHARGE_DAYS : Int := 3650

/-- A row of the `recharge_records` table, restricted to one user
(columns of `index.ts`; `expire_before` / `expire_after` are the derived
snapshot columns rewritten by every rebuild). -/
structure RechargeRecord where
  id : Nat
  changeDays : Int
  reason : RechargeReason
  paymentAmountCents : Int
  occurredAt : Int
  expireBefore : Int
  expireAfter : Int
  source : RechargeRecordSource
  refundedAt : Option Int
  refundAmountCents : Option Int
  deriving DecidableEq, Repr

/-- The `ORDER BY COALESCE(occurred_at, created_at) ASC, id ASC` key of
`rebuildUserRechargeChain` (every record in this model has an
`occurred_at`, as do all rows written by the current code). -/
def chainLe (a b : RechargeRecord) : Prop :=
  a.occurredAt < b.occurredAt ∨ (a.occurredAt = b.occurredAt ∧ a.id ≤ b.id)

instance : DecidableRel chainLe := fun a b => by
  unfold chainLe; exact inferInstance

instance : IsTotal RechargeRecord chainLe := by
  constructor
  intro a b
  unfold chainLe
  omega

instance : IsTrans RechargeRecord chainLe := by
  constructor
  intro a b c hab hbc
  unfold chainLe at hab hbc ⊢
  omega

/-- The `SELECT ... ORDER BY` of `rebuildUserRechargeChain`. -/
def sortChain (records : List RechargeRecord) : List RechargeRecord :=
  List.insertionSort chainLe records

/-- The replay loop of `rebuildUserRechargeChain`: every row's
`expire_before` / `expire_after` snapshot is recomputed and the terminal
running expiry is returned. -/
def replayChain (runningExpireAt : Int) :
    List RechargeRecord → List RechargeRecord × Int
  | [] => ([], runningExpireAt)
  | row :: rest =>
      let expireBefore := runningExpireAt
      let expireAfter :=
        max expireBefore row.occurredAt + row.changeDays * SECONDS_PER_DAY
      let tail := replayChain expireAfter rest
      ({ row with expireBefore := expireBefore, expireAfter := expireAfter }
          :: tail.1,
        tail.2)

/-- The initial running expiry of `rebuildUserRechargeChain`:
`Math.max(firstRow.expire_before, 0)`, or 0 for an empty chain. -/
def chainStart (sorted : List RechargeRecord) : Int :=
  match sorted.head? with
  | some firstRow => max firstRow.expireBefore 0
  | none => 0

/-- `rebuildUserRechargeChain` of `index.ts`: sort the user's records by
`(occurred_at, id)`, start the running expiry from `chainStart`, replay,
and return the rewritten rows together with the new `expire_at`. -/
def rebuildUserRechargeChain (records : List RechargeRecord) :
    List RechargeRecord × Int :=
  replayChain (chainStart (sortChain records)) (sortChain records)

/-- One user's slice of the store: the user's `recharge_records` rows,
the user row's derived `expire_at` / `updated_at`, and the fresh-id
counter standing in for `crypto.randomUUID()`. -/
structure LedgerState where
  records : List RechargeRecord
  expireAt : Int
  updatedAt : Int
  nextId : Nat
  deriving DecidableEq, Repr

/-- A freshly created user (`INSERT INTO users ... expire_at ... 0` of
`index.ts`): no recharge records, `expire_at = 0`. -/
def initialLedgerState : LedgerState :=
  { records := [], expireAt := 0, updatedAt := 0, nextId := 0 }

/-- `getRechargeRecordById` of `index.ts` (`SELECT ... WHERE r.id = ?`). -/
def getRechargeRecordById (records : List RechargeRecord) (recordId : Nat) :
    Option RechargeRecord :=
  records.find? (fun r => r.id == recordId)

/-- The row inserted by `createAndRebuildRechargeRecord` before the
rebuild: placeholder snapshots `expire_before = expire_after = 0`, no
refund metadata, id drawn from the fresh-id counter. The counter id,
unlike the source's random `crypto.randomUUID()`, sorts a fresh record
after existing records sharing its `occurred_at`; no theorem below
relies on that tie-break (the one place it could matter, the refund
formula of C3, instead requires strict `occurred_at` precedence). -/
def freshRecord (st : LedgerState) (days : Int) (reason : RechargeReason)
    (paymentAmountCents : Int) (occurredAt : Int)
    (source : RechargeRecordSource) : RechargeRecord :=
  { id := st.nextId
    changeDays := days
    reason := reason
    paymentAmountCents := paymentAmountCents
    occurredAt := occurredAt
    expireBefore := 0
    expireAfter := 0
    source := source
    refundedAt := none
    refundAmountCents := none }

/-- `createAndRebuildRechargeRecord` of `index.ts`: insert a record with
placeholder snapshots, then rebuild the user's whole chain. Returns the
new state and the inserted id. -/
def createAndRebuildRechargeRecord (st : LedgerState) (days : Int)
    (reason : RechargeReason) (paymentAmountCents : Int)
    (occurredAt now : Int) (source : RechargeRecordSource) :
    LedgerState × Nat :=
  let record := freshRecord st days reason paymentAmountCents occurredAt
    source
  let rebuilt := rebuildUserRechargeChain (record :: st.records)
  ({ records := rebuilt.1
     expireAt := rebuilt.2
     updatedAt := now
     nextId := st.nextId + 1 },
    st.nextId)

/-- Outcome of `POST /api/admin/recharge-records/:id/refund`, one
constructor per early return of the handler in `index.ts`. -/
inductive RefundOutcome where
  | ok (rollbackRecordId : Nat)
  | notFound
  | alreadyRefunded
  | nonPositiveDays
  | rollbackSource
  | invalidAmount
  deriving DecidableEq, Repr

/-- Whether a refund outcome is one of the handler's rejections. -/
def RefundOutcome.isRejected : RefundOutcome → Bool
  | .ok _ => false
  | _ => true

/-- The refund-metadata write of the refund handler, per row: the
`UPDATE recharge_records SET refunded_at = ?, ... WHERE id = ? AND
refunded_at IS NULL` of `index.ts`, applied as a map over the table. -/
def markRefunded (recordId : Nat) (now resolved : Int)
    (r : RechargeRecord) : RechargeRecord :=
  if r.id = recordId ∧ r.refundedAt = none then
    { r with refundedAt := some now, refundAmountCents := some resolved }
  else r

/-- The refund handler of `index.ts` (ledger part). Guards in source
order: already refunded (`refunded_at > 0`), non-positive `change_days`,
`refund_rollback` source, refund amount out of `[0, original]`. On
success it sets the original row's refund metadata (`markRefunded`;
zero rows affected re-reports "already refunded"), then inserts a
compensating `-Math.abs(change_days)` record with source
`refund_rollback` and rebuilds, and, when a granted invitee bonus hangs
off the refunded record (`findGrantedBonusByTriggerRechargeRecord`,
passed in here as `grantedBonusDays` since the grant lives in the
referral tables), inserts a second `-Math.abs(bonus_days)` rollback
record the same way. The bonus rollback lands on the same user's chain:
the grant's invitee is exactly the user who owns the refunded recharge
record. -/
def refundRechargeRecord (st : LedgerState) (recordId : Nat)
    (refundAmountCents : Option Int) (grantedBonusDays : Option Int)
    (now : Int) : LedgerState × RefundOutcome :=
  match getRechargeRecordById st.records recordId with
  | none => (st, .notFound)
  | some target =>
      if 0 < target.refundedAt.getD 0 then (st, .alreadyRefunded)
      else if target.changeDays ≤ 0 then (st, .nonPositiveDays)
      else if target.source = .refundRollback then (st, .rollbackSource)
      else
        let resolved := refundAmountCents.getD target.paymentAmountCents
        if resolved < 0 ∨ target.paymentAmountCents < resolved then
          (st, .invalidAmount)
        else if ¬ st.records.any
            (fun r => r.id == recordId && r.refundedAt == none) then
          (st, .alreadyRefunded)
        else
          let marked := st.records.map (markRefunded recordId now resolved)
          let step1 := createAndRebuildRechargeRecord
            { st with records := marked }
            (-|target.changeDays|) .manualFix 0 now now .refundRollback
          match grantedBonusDays with
          | none => (step1.1, .ok step1.2)
          | some bonusDays =>
              let step2 := createAndRebuildRechargeRecord step1.1
                (-|bonusDays|) .manualFix 0 now now .refundRollback
              (step2.1, .ok step1.2)

/-- `REFERRAL_BONUS_DAYS` of `modules/referral/service.ts`. -/
def REFERRAL_BONUS_DAYS : Int := 30

/-- One admin operation on a user's ledger, with the request parameters
of the corresponding `index.ts` endpoint. `bonusGranted` on a recharge
or backfill records whether `applyReferralEffectsForRecharge` went on to
issue the one-time invitee bonus (a decision read from the referral
tables, embedded separately; when it does, the endpoint inserts an extra
`system_bonus` recharge via the same `createAndRebuildRechargeRecord`).
Likewise `grantedBonusDays` on a refund carries the result of
`findGrantedBonusByTriggerRechargeRecord`. -/
inductive LedgerOp where
  | recharge (days : Int) (reason : RechargeReason)
      (paymentAmountCents : Int) (bonusGranted : Bool) (now : Int)
  | backfill (days : Int) (reason : RechargeReason)
      (paymentAmountCents : Int) (occurredAt : Int) (bonusGranted : Bool)
      (now : Int)
  | refund (recordId : Nat) (refundAmountCents : Option Int)
      (grantedBonusDays : Option Int) (now : Int)

/-- The invitee-bonus recharge inserted by
`applyReferralEffectsForRecharge`: `REFERRAL_BONUS_DAYS` days, reason
`referral_reward`, zero payment, source `system_bonus`. -/
def applyBonusRecharge (st : LedgerState) (now : Int) : LedgerState :=
  (createAndRebuildRechargeRecord st REFERRAL_BONUS_DAYS .referralReward 0
    now now .systemBonus).1

/-- Apply one admin operation, including the endpoint's input guards
(`days` an integer in `[1, MAX_RECHARGE_DAYS]`, payment amount in
range, a backfill's `occurred_at` positive and not in the future). A
request failing a guard is rejected with HTTP 400 before any write, so
it leaves the state unchanged. -/
def applyLedgerOp (st : LedgerState) : LedgerOp → LedgerState
  | .recharge days reason paymentAmountCents bonusGranted now =>
      if days ≤ 0 ∨ MAX_RECHARGE_DAYS < days then st
      else if paymentAmountCents < 0 then st
      else
        let st1 := (createAndRebuildRechargeRecord st days reason
          paymentAmountCents now now .normal).1
        if bonusGranted then applyBonusRecharge st1 now else st1
  | .backfill days reason paymentAmountCents occurredAt bonusGranted now =>
      if days ≤ 0 ∨ MAX_RECHARGE_DAYS < days then st
      else if paymentAmountCents < 0 then st
      else if occurredAt ≤ 0 then st
      else if now < occurredAt then st
      else
        let st1 := (createAndRebuildRechargeRecord st days reason
          paymentAmountCents occurredAt now .backfill).1
        if bonusGranted then applyBonusRecharge st1 now else st1
  | .refund recordId refundAmountCents grantedBonusDays now =>
      (refundRechargeRecord st recordId refundAmountCents grantedBonusDays
        now).1

/-- Projection to the `(occurred_at, id)` sort key. -/
def chainKey (r : RechargeRecord) : Int × Nat := (r.occurredAt, r.id)

/-- The sort-key order on bare `(occurred_at, id)` pairs. -/
def pairKeyLe (p q : Int × Nat) : Prop :=
  p.1 < q.1 ∨ (p.1 = q.1 ∧ p.2 ≤ q.2)

/-- A user's slice of the store is chain-coherent when replaying the
sorted chain from zero rewrites nothing: every stored
`expire_before` / `expire_after` snapshot is already the replayed one
and the stored `expire_at` is the terminal running expiry. -/
def chainCoherent (st : LedgerState) : Prop :=
  replayChain 0 (sortChain st.records) = (sortChain st.records, st.expireAt)

instance (st : LedgerState) : Decidable (chainCoherent st) :=
  inferInstanceAs (Decidable (_ = _))

/-- Agreement on every column except the derived snapshot columns
`expire_before` / `expire_after` (which every rebuild rewrites). -/
def coreEq (a b : RechargeRecord) : Prop :=
  a.id = b.id ∧ a.changeDays = b.changeDays ∧ a.reason = b.reason ∧
    a.paymentAmountCents = b.paymentAmountCents ∧
    a.occurredAt = b.occurredAt ∧ a.source = b.source ∧
    a.refundedAt = b.refundedAt ∧ a.refundAmountCents = b.refundAmountCents

/-! ### Referral engine (`modules/referral/service.ts`) -/

/-- `REFERRAL_REWARD_RATE_BPS` of `service.ts`. -/
def REFERRAL_REWARD_RATE_BPS : Int := 1000

/-- `REWARD_ELIGIBLE_REASONS.has` of `service.ts`. -/
def REWARD_ELIGIBLE_REASONS (reason : RechargeReason) : Bool :=
  reason == .wechatPay || reason == .alipay || reason == .platformOrder

/-- `REWARD_ELIGIBLE_SOURCES.has` of `service.ts`. -/
def REWARD_ELIGIBLE_SOURCES (source : RechargeRecordSource) : Bool :=
  source == .normal

/-- `isReferralRewardEligible` of `service.ts`. -/
def isReferralRewardEligible (reason : RechargeReason)
    (source : RechargeRecordSource) (paymentAmountCents : Int) : Bool :=
  decide (0 < paymentAmountCents) && REWARD_ELIGIBLE_REASONS reason &&
    REWARD_ELIGIBLE_SOURCES source

/-- `calculateRewardAmountCents` of `service.ts`. The source's
`Number.isInteger` guards are vacuous over `Int`; its call sites use the
default rate, passed here explicitly. For the positive operands that
reach it, `Math.floor` of the exact JS quotient is integer division. -/
def calculateRewardAmountCents (paymentAmountCents rewardRateBps : Int) :
    Int :=
  if paymentAmountCents ≤ 0 then 0
  else if rewardRateBps ≤ 0 then 0
  else paymentAmountCents * rewardRateBps / 10000

/-- A `users` row as seen by the referral engine (profile columns used
by the risk check). -/
structure UserProfile where
  id : String
  systemEmail : Option String
  userEmail : Option String
  familyGroupName : Option String
  deriving DecidableEq, Repr

/-- A `user_referrals` row. -/
structure ReferralBinding where
  id : Nat
  inviterUserId : String
  inviteeUserId : String
  boundByAdminId : Option String
  createdAt : Int
  deriving DecidableEq, Repr

/-- `ReferralRewardStatus` enum of `packages/shared`. -/
inductive ReferralRewardStatus where
  | pending
  | available
  | canceled
  | withdrawn
  deriving DecidableEq, Repr

/-- `ReferralBonusStatus` enum of `packages/shared`. -/
inductive ReferralBonusStatus where
  | pending
  | granted
  | revoked
  deriving DecidableEq, Repr

/-- A `referral_reward_ledger` row. -/
structure ReferralRewardEntry where
  id : Nat
  inviterUserId : String
  inviteeUserId : String
  rechargeRecordId : Nat
  rechargeReason : RechargeReason
  rechargeSource : RechargeRecordSource
  paymentAmountCents : Int
  rewardRateBps : Int
  rewardAmountCents : Int
  status : ReferralRewardStatus
  unlockAt : Int
  createdAt : Int
  updatedAt : Int
  availableAt : Option Int
  canceledAt : Option Int
  canceledReason : Option String
  withdrawnAt : Option Int
  withdrawalId : Option Nat
  deriving DecidableEq, Repr

/-- A `referral_bonus_grants` row. -/
structure BonusGrant where
  id : Nat
  inviteeUserId : String
  triggerRechargeRecordId : Nat
  bonusDays : Int
  status : ReferralBonusStatus
  createdAt : Int
  bonusRechargeRecordId : Option Nat
  revokedAt : Option Int
  revokeRechargeRecordId : Option Nat
  deriving DecidableEq, Repr

/-- A `referral_withdrawals` row. -/
structure ReferralWithdrawal where
  id : Nat
  inviterUserId : String
  amountCents : Int
  processedByAdminId : String
  note : Option String
  createdAt : Int
  deriving DecidableEq, Repr

/-- The referral-engine slice of the store: the tables touched by
`service.ts`, plus the fresh-id counter standing in for
`crypto.randomUUID()`. -/
structure ReferralDb where
  users : List UserProfile
  referrals : List ReferralBinding
  rewards : List ReferralRewardEntry
  bonusGrants : List BonusGrant
  withdrawals : List ReferralWithdrawal
  nextId : Nat
  deriving DecidableEq, Repr

/-- Result type `ReferralBindResult` of `service.ts` (success fields,
or the failure `code`). -/
inductive ReferralBindResult where
  | ok (inviterUserId inviteeUserId : String) (boundAt : Int)
      (alreadyBound : Bool)
  | selfInvite
  | inviterNotFound
  | inviteeNotFound
  | inviteeAlreadyBound
  | riskRejected
  deriving DecidableEq, Repr

/-- JS `String.prototype.trim` as used on the ids of
`bindUserReferral`, embedded over the character list: strip leading and
trailing whitespace. (Lean's own `String.trim` is defined by
well-founded recursion on byte positions, which the kernel cannot
evaluate on concrete inputs; this list form computes.) -/
def trimId (s : String) : String :=
  ⟨((s.data.dropWhile Char.isWhitespace).reverse.dropWhile
    Char.isWhitespace).reverse⟩

/-- One disjunct of the risk-control `WHERE` clause of
`bindUserReferral`: the inviter's field is non-null, non-empty and equal
to the invitee's (SQL equality against `NULL` is not a match). -/
def fieldCollides : Option String → Option String → Bool
  | some a, some b => a != "" && a == b
  | _, _ => false

/-- The profile-collision risk query of `bindUserReferral`. -/
def profilesCollide (inviter invitee : UserProfile) : Bool :=
  fieldCollides inviter.systemEmail invitee.systemEmail ||
    fieldCollides inviter.userEmail invitee.userEmail ||
    fieldCollides inviter.familyGroupName invitee.familyGroupName

/-- `bindUserReferral` of `service.ts`: trim both ids, reject
self-invites, require both users, succeed idempotently on a repeat bind
to the same inviter (returning the original `created_at` as `boundAt`),
reject a bind to a different inviter, optionally run the
profile-collision risk check, then insert the binding. -/
def bindUserReferral (db : ReferralDb) (inviterUserId inviteeUserId : String)
    (boundByAdminId : Option String) (now : Int)
    (checkProfileAbuse : Bool) : ReferralDb × ReferralBindResult :=
  let inviterId := trimId inviterUserId
  let inviteeId := trimId inviteeUserId
  if inviterId = inviteeId then (db, .selfInvite)
  else
    match db.users.find? (fun u => u.id == inviterId) with
    | none => (db, .inviterNotFound)
    | some inviter =>
        match db.users.find? (fun u => u.id == inviteeId) with
        | none => (db, .inviteeNotFound)
        | some invitee =>
            match db.referrals.find?
                (fun b => b.inviteeUserId == inviteeId) with
            | some existing =>
                if existing.inviterUserId = inviterId then
                  (db, .ok inviterId inviteeId existing.createdAt true)
                else (db, .inviteeAlreadyBound)
            | none =>
                if checkProfileAbuse && profilesCollide inviter invitee then
                  (db, .riskRejected)
                else
                  ({ db with
                      referrals := db.referrals ++
                        [{ id := db.nextId
                           inviterUserId := inviterId
                           inviteeUserId := inviteeId
                           boundByAdminId := boundByAdminId
                           createdAt := now }]
                      nextId := db.nextId + 1 },
                    .ok inviterId inviteeId now false)

/-- Result type `CreateReferralRewardResult` of `service.ts`. -/
structure CreateReferralRewardResult where
  created : Bool
  inviterUserId : Option String
  rewardAmountCents : Int
  deriving DecidableEq, Repr

/-- `createReferralRewardForRecharge` of `service.ts`: no-op unless the
trigger is reward-eligible, the invitee has a binding, the computed
amount is positive, and no ledger entry exists yet for this trigger
record (the unique constraint on `recharge_record_id`); otherwise
insert a `pending` entry. -/
def createReferralRewardForRecharge (db : ReferralDb)
    (inviteeUserId : String) (rechargeRecordId : Nat)
    (rechargeReason : RechargeReason)
    (rechargeSource : RechargeRecordSource) (paymentAmountCents : Int)
    (unlockAt now : Int) : ReferralDb × CreateReferralRewardResult :=
  if ¬ isReferralRewardEligible rechargeReason rechargeSource
      paymentAmountCents then
    (db, { created := false, inviterUserId := none, rewardAmountCents := 0 })
  else
    match db.referrals.find? (fun b => b.inviteeUserId == inviteeUserId) with
    | none =>
        (db,
          { created := false, inviterUserId := none, rewardAmountCents := 0 })
    | some referral =>
        let rewardAmountCents :=
          calculateRewardAmountCents paymentAmountCents
            REFERRAL_REWARD_RATE_BPS
        if rewardAmountCents ≤ 0 then
          (db,
            { created := false
              inviterUserId := some referral.inviterUserId
              rewardAmountCents := 0 })
        else
          match db.rewards.find?
              (fun e => e.rechargeRecordId == rechargeRecordId) with
          | some _ =>
              (db,
                { created := false
                  inviterUserId := some referral.inviterUserId
                  rewardAmountCents := rewardAmountCents })
          | none =>
              ({ db with
                  rewards := db.rewards ++
                    [{ id := db.nextId
                       inviterUserId := referral.inviterUserId
                       inviteeUserId := inviteeUserId
                       rechargeRecordId := rechargeRecordId
                       rechargeReason := rechargeReason
                       rechargeSource := rechargeSource
                       paymentAmountCents := paymentAmountCents
                       rewardRateBps := REFERRAL_REWARD_RATE_BPS
                       rewardAmountCents := rewardAmountCents
                       status := .pending
                       unlockAt := unlockAt
                       createdAt := now
                       updatedAt := now
                       availableAt := none
                       canceledAt := none
                       canceledReason := none
                       withdrawnAt := none
                       withdrawalId := none }]
                  nextId := db.nextId + 1 },
                { created := true
                  inviterUserId := some referral.inviterUserId
                  rewardAmountCents := rewardAmountCents })

/-- `reserveInviteeBonusGrant` of `service.ts`: the
`INSERT OR IGNORE` against the unique indexes on `invitee_user_id` and
`trigger_recharge_record_id`; returns whether a row was inserted. -/
def reserveInviteeBonusGrant (db : ReferralDb) (inviteeUserId : String)
    (triggerRechargeRecordId : Nat) (bonusDays : Int) (now : Int) :
    ReferralDb × Bool :=
  if db.bonusGrants.any (fun g =>
      g.inviteeUserId == inviteeUserId ||
        g.triggerRechargeRecordId == triggerRechargeRecordId) then
    (db, false)
  else
    ({ db with
        bonusGrants := db.bonusGrants ++
          [{ id := db.nextId
             inviteeUserId := inviteeUserId
             triggerRechargeRecordId := triggerRechargeRecordId
             bonusDays := bonusDays
             status := .pending
             createdAt := now
             bonusRechargeRecordId := none
             revokedAt := none
             revokeRechargeRecordId := none }]
        nextId := db.nextId + 1 },
      true)

/-- `confirmInviteeBonusGrant` of `service.ts`: `UPDATE ... SET
bonus_recharge_record_id, status = 'granted' WHERE invitee_user_id = ?
AND status = 'pending'`; returns whether any row changed. -/
def confirmInviteeBonusGrant (db : ReferralDb) (inviteeUserId : String)
    (bonusRechargeRecordId : Nat) : ReferralDb × Bool :=
  ({ db with
      bonusGrants := db.bonusGrants.map (fun g =>
        if g.inviteeUserId = inviteeUserId ∧ g.status = .pending then
          { g with
              bonusRechargeRecordId := some bonusRechargeRecordId
              status := .granted }
        else g) },
    db.bonusGrants.any (fun g =>
      g.inviteeUserId == inviteeUserId && g.status == .pending))

/-- `findGrantedBonusByTriggerRechargeRecord` of `service.ts`. -/
def findGrantedBonusByTriggerRechargeRecord (db : ReferralDb)
    (triggerRechargeRecordId : Nat) : Option BonusGrant :=
  db.bonusGrants.find? (fun g =>
    g.triggerRechargeRecordId == triggerRechargeRecordId &&
      g.status == .granted)

/-- `cancelReferralRewardsByRechargeRecord` of `service.ts`:
`UPDATE ... SET status = 'canceled', ... WHERE recharge_record_id = ?
AND status IN ('pending', 'available')`; returns the change count. -/
def cancelReferralRewardsByRechargeRecord (db : ReferralDb)
    (rechargeRecordId : Nat) (reason : String) (now : Int) :
    ReferralDb × Nat :=
  ({ db with
      rewards := db.rewards.map (fun e =>
        if e.rechargeRecordId = rechargeRecordId ∧
            (e.status = .pending ∨ e.status = .available) then
          { e with
              status := .canceled
              canceledAt := some now
              canceledReason := some reason
              updatedAt := now }
        else e) },
    db.rewards.countP (fun e =>
      e.rechargeRecordId == rechargeRecordId &&
        (e.status == ReferralRewardStatus.pending ||
          e.status == ReferralRewardStatus.available)))

/-- `unlockPendingReferralRewards` of `service.ts`: promote every
`pending` reward past its unlock time to `available`. -/
def unlockPendingReferralRewards (db : ReferralDb) (now : Int) :
    ReferralDb × Nat :=
  ({ db with
      rewards := db.rewards.map (fun e =>
        if e.status = .pending ∧ e.unlockAt ≤ now then
          { e with
              status := .available
              availableAt := some now
              updatedAt := now }
        else e) },
    db.rewards.countP (fun e =>
      e.status == ReferralRewardStatus.pending && decide (e.unlockAt ≤ now)))

/-- Result type `WithdrawReferralRewardsResult` of `service.ts`. -/
structure WithdrawReferralRewardsResult where
  withdrawalId : Nat
  withdrawnAmountCents : Int
  withdrawnCount : Nat
  deriving DecidableEq, Repr

/-- The `items.reduce((sum, row) => sum + row.reward_amount_cents, 0)`
of `withdrawAvailableReferralRewards`. -/
def sumRewardCents (items : List ReferralRewardEntry) : Int :=
  items.foldl (fun sum row => sum + row.rewardAmountCents) 0

/-- The per-row effect of the withdrawal's
`UPDATE ... SET status = 'withdrawn', ... WHERE id IN (...) AND status =
'available'` (the `IN` list being the selected rows, i.e. this
inviter's `available` rows). -/
def withdrawFlip (inviterUserId : String) (withdrawalId : Nat) (now : Int)
    (e : ReferralRewardEntry) : ReferralRewardEntry :=
  if e.inviterUserId = inviterUserId ∧ e.status = .available then
    { e with
        status := .withdrawn
        withdrawnAt := some now
        withdrawalId := some withdrawalId
        updatedAt := now }
  else e

/-- `withdrawAvailableReferralRewards` of `service.ts`: select all
`available` rewards of the inviter, return `null` when there are none
or their sum is not positive, otherwise insert one withdrawal row for
the sum and flip exactly the selected rows (`WHERE id IN (...) AND
status = 'available'`, which between the select and the update are the
rows with this inviter and status `available`) to `withdrawn`. -/
def withdrawAvailableReferralRewards (db : ReferralDb)
    (inviterUserId : String) (processedByAdminId : String)
    (note : Option String) (now : Int) :
    ReferralDb × Option WithdrawReferralRewardsResult :=
  let items := db.rewards.filter (fun e =>
    e.inviterUserId == inviterUserId &&
      e.status == ReferralRewardStatus.available)
  if items.isEmpty then (db, none)
  else
    let withdrawnAmountCents := sumRewardCents items
    if withdrawnAmountCents ≤ 0 then (db, none)
    else
      let withdrawalId := db.nextId
      ({ db with
          withdrawals := db.withdrawals ++
            [{ id := withdrawalId
               inviterUserId := inviterUserId
               amountCents := withdrawnAmountCents
               processedByAdminId := processedByAdminId
               note := note
               createdAt := now }]
          rewards := db.rewards.map
            (withdrawFlip inviterUserId withdrawalId now)
          nextId := db.nextId + 1 },
        some
          { withdrawalId := withdrawalId
            withdrawnAmountCents := withdrawnAmountCents
            withdrawnCount := items.length })

/-- `applyReferralEffectsForRecharge` of `index.ts`, applied to the
referral tables and the invitee's ledger slice: create the reward for
the trigger record (unlock at the record's `expire_after`); only when a
reward was actually created, reserve the one-time invitee bonus; only
when this call reserved it, issue the bonus recharge (source
`system_bonus`, zero payment) through `createAndRebuildRechargeRecord`
and confirm the grant. -/
def applyReferralEffectsForRecharge (db : ReferralDb)
    (ledger : LedgerState) (inviteeUserId : String) (recordId : Nat)
    (reason : RechargeReason) (source : RechargeRecordSource)
    (paymentAmountCents : Int) (expireAfter : Int) (occurredAt : Int) :
    ReferralDb × LedgerState :=
  let step1 := createReferralRewardForRecharge db inviteeUserId recordId
    reason source paymentAmountCents expireAfter occurredAt
  if ¬ step1.2.created then (step1.1, ledger)
  else
    let step2 := reserveInviteeBonusGrant step1.1 inviteeUserId recordId
      REFERRAL_BONUS_DAYS occurredAt
    if ¬ step2.2 then (step2.1, ledger)
    else
      let step3 := createAndRebuildRechargeRecord ledger
        REFERRAL_BONUS_DAYS .referralReward 0 occurredAt occurredAt
        .systemBonus
      ((confirmInviteeBonusGrant step2.1 inviteeUserId step3.2).1, step3.1)

/-! ### Login rate limiter (`src/unnamed/part_005`) -/

/-- `WINDOW_SECONDS` of the rate limiter. -/
def WINDOW_SECONDS : Int := 10 * 60

/-- `BLOCK_SECONDS` of the rate limiter. -/
def BLOCK_SECONDS : Int := 10 * 60

/-- `MAX_FAILURES` of the rate limiter. -/
def MAX_FAILURES : Nat := 5

/-- Per-client `FailureState` of the rate limiter. The limiter's map is
keyed by client ip; one key's slot (`Option FailureState`, `none` when
absent) is modelled, the functions below threading it explicitly. The
source's `maybeCleanup` is omitted: it only deletes entries whose
window start and lockout end are both more than `STALE_SECONDS` old,
and `normalizeState` resets any such entry to a fresh state before it
is read, so the deletion never changes an observable status. -/
structure FailureState where
  windowStartedAt : Int
  failedCount : Nat
  blockedUntil : Int
  deriving DecidableEq, Repr

/-- `LoginLimitStatus` of the rate limiter. -/
structure LoginLimitStatus where
  blocked : Bool
  retryAfterSeconds : Int
  deriving DecidableEq, Repr

/-- `normalizeState` of the rate limiter: with no active lockout and a
window older than `WINDOW_SECONDS`, reset the counter. -/
def normalizeState (state : Option FailureState) (now : Int) :
    Option FailureState :=
  match state with
  | none => none
  | some s =>
      if s.blockedUntil ≤ now ∧ WINDOW_SECONDS < now - s.windowStartedAt then
        some { windowStartedAt := now, failedCount := 0, blockedUntil := 0 }
      else some s

/-- `checkLoginLimit` of the rate limiter (also returns the normalized
state the source writes back in place). -/
def checkLoginLimit (state : Option FailureState) (now : Int) :
    Option FailureState × LoginLimitStatus :=
  match normalizeState state now with
  | none => (none, { blocked := false, retryAfterSeconds := 0 })
  | some s =>
      if s.blockedUntil ≤ now then
        (some s, { blocked := false, retryAfterSeconds := 0 })
      else
        (some s,
          { blocked := true
            retryAfterSeconds := max 1 (s.blockedUntil - now) })

/-- `recordFailedLogin` of the rate limiter. -/
def recordFailedLogin (state : Option FailureState) (now : Int) :
    Option FailureState × LoginLimitStatus :=
  let s := (normalizeState state now).getD
    { windowStartedAt := now, failedCount := 0, blockedUntil := 0 }
  if now < s.blockedUntil then
    (some s,
      { blocked := true, retryAfterSeconds := max 1 (s.blockedUntil - now) })
  else
    let s1 :=
      if WINDOW_SECONDS < now - s.windowStartedAt then
        { s with windowStartedAt := now, failedCount := 0 }
      else s
    let failedCount := s1.failedCount + 1
    if MAX_FAILURES ≤ failedCount then
      (some
          { windowStartedAt := now
            failedCount := 0
            blockedUntil := now + BLOCK_SECONDS },
        { blocked := true, retryAfterSeconds := BLOCK_SECONDS })
    else
      (some { s1 with failedCount := failedCount },
        { blocked := false, retryAfterSeconds := 0 })

/-- `clearLoginLimit` of the rate limiter: delete the client's entry. -/
def clearLoginLimit (_state : Option FailureState) : Option FailureState :=
  none

/-! ### Replay and sort infrastructure -/

lemma chainLe_iff_key {a b : RechargeRecord} :
    chainLe a b ↔ pairKeyLe (chainKey a) (chainKey b) := Iff.rfl

lemma sorted_of_map_chainKey_eq {l l' : List RechargeRecord}
    (h : l'.map chainKey = l.map chainKey)
    (hs : List.Sorted chainLe l) : List.Sorted chainLe l' := by
  have h1 : (l.map chainKey).Pairwise pairKeyLe := by
    rw [List.pairwise_map]
    exact hs.imp (fun hab => chainLe_iff_key.mp hab)
  rw [← h, List.pairwise_map] at h1
  exact h1.imp (fun hab => chainLe_iff_key.mpr hab)

lemma replayChain_nil (s : Int) : replayChain s [] = ([], s) := rfl

lemma replayChain_cons (s : Int) (row : RechargeRecord)
    (rest : List RechargeRecord) :
    replayChain s (row :: rest) =
      ({ row with
          expireBefore := s
          expireAfter :=
            max s row.occurredAt + row.changeDays * SECONDS_PER_DAY } ::
          (replayChain
            (max s row.occurredAt + row.changeDays * SECONDS_PER_DAY)
            rest).1,
        (replayChain
          (max s row.occurredAt + row.changeDays * SECONDS_PER_DAY)
          rest).2) := rfl

lemma replayChain_map_chainKey (s : Int) (l : List RechargeRecord) :
    ((replayChain s l).1).map chainKey = l.map chainKey := by
  induction l generalizing s with
  | nil => rfl
  | cons row rest ih =>
      rw [replayChain_cons]
      simp [chainKey, ih]

lemma replayChain_head_expireBefore {s : Int} {l : List RechargeRecord}
    {r : RechargeRecord} (h : ((replayChain s l).1).head? = some r) :
    r.expireBefore = s := by
  cases l with
  | nil => simp [replayChain_nil] at h
  | cons row rest =>
      rw [replayChain_cons] at h
      simp only [List.head?_cons, Option.some.injEq] at h
      rw [← h]

lemma replayChain_replayChain (s : Int) (l : List RechargeRecord) :
    replayChain s ((replayChain s l).1) = replayChain s l := by
  induction l generalizing s with
  | nil => rfl
  | cons row rest ih =>
      rw [replayChain_cons, replayChain_cons]
      simp [ih]

lemma sorted_replayChain (s : Int) {l : List RechargeRecord}
    (hs : List.Sorted chainLe l) :
    List.Sorted chainLe (replayChain s l).1 :=
  sorted_of_map_chainKey_eq (replayChain_map_chainKey s l) hs

lemma head_orderedInsert (a : RechargeRecord) (l : List RechargeRecord) :
    (List.orderedInsert chainLe a l).head? = some a ∨
      (List.orderedInsert chainLe a l).head? = l.head? := by
  cases l with
  | nil => left; rfl
  | cons b t =>
      by_cases h : chainLe a b
      · left; simp [List.orderedInsert, h]
      · right; simp [List.orderedInsert, h]

/-! ### The chain-coherence invariant -/

lemma chainCoherent_initial : chainCoherent initialLedgerState := rfl

lemma coherent_head_eb {st : LedgerState} (hc : chainCoherent st) :
    ∀ r, (sortChain st.records).head? = some r → r.expireBefore = 0 := by
  intro r h
  have h1 : ((replayChain 0 (sortChain st.records)).1).head? = some r := by
    rw [congrArg Prod.fst hc]
    exact h
  exact replayChain_head_expireBefore h1

lemma createAndRebuild_eq (st : LedgerState) (days : Int)
    (reason : RechargeReason) (pay : Int) (occurredAt now : Int)
    (source : RechargeRecordSource) :
    createAndRebuildRechargeRecord st days reason pay occurredAt now
        source =
      ({ records :=
            (rebuildUserRechargeChain
              (freshRecord st days reason pay occurredAt source ::
                st.records)).1
         expireAt :=
            (rebuildUserRechargeChain
              (freshRecord st days reason pay occurredAt source ::
                st.records)).2
         updatedAt := now
         nextId := st.nextId + 1 },
        st.nextId) := rfl

lemma chainStart_eq_zero {l : List RechargeRecord}
    (h : ∀ r, l.head? = some r → r.expireBefore = 0) :
    chainStart l = 0 := by
  unfold chainStart
  cases hh : l.head? with
  | none => rfl
  | some r =>
      show max r.expireBefore 0 = 0
      rw [h r hh]
      rfl

lemma rebuild_cons_of_head_eb {records : List RechargeRecord}
    {rec0 : RechargeRecord} (heb : rec0.expireBefore = 0)
    (hcoh : ∀ r, (sortChain records).head? = some r → r.expireBefore = 0) :
    rebuildUserRechargeChain (rec0 :: records) =
      replayChain 0 (List.orderedInsert chainLe rec0 (sortChain records)) := by
  have hs : sortChain (rec0 :: records) =
      List.orderedInsert chainLe rec0 (sortChain records) := rfl
  have hstart :
      chainStart (List.orderedInsert chainLe rec0 (sortChain records)) =
        0 := by
    apply chainStart_eq_zero
    intro r hr
    rcases head_orderedInsert rec0 (sortChain records) with hh | hh
    · rw [hh] at hr
      cases hr
      exact heb
    · rw [hh] at hr
      exact hcoh r hr
  unfold rebuildUserRechargeChain
  rw [hs, hstart]

lemma chainCoherent_createAndRebuild (st : LedgerState) (days : Int)
    (reason : RechargeReason) (pay : Int) (occurredAt now : Int)
    (source : RechargeRecordSource) (hc : chainCoherent st) :
    chainCoherent
      (createAndRebuildRechargeRecord st days reason pay occurredAt now
        source).1 := by
  rw [createAndRebuild_eq]
  unfold chainCoherent
  rw [rebuild_cons_of_head_eb rfl (coherent_head_eb hc)]
  have hsorted : List.Sorted chainLe
      (List.orderedInsert chainLe
        (freshRecord st days reason pay occurredAt source)
        (sortChain st.records)) :=
    List.Sorted.orderedInsert _ _
      (List.sorted_insertionSort chainLe st.records)
  have hsorted2 := sorted_replayChain 0 hsorted
  have hfix : sortChain ((replayChain 0
      (List.orderedInsert chainLe
        (freshRecord st days reason pay occurredAt source)
        (sortChain st.records))).1) =
      (replayChain 0
        (List.orderedInsert chainLe
          (freshRecord st days reason pay occurredAt source)
          (sortChain st.records))).1 :=
    List.Sorted.insertionSort_eq hsorted2
  show replayChain 0 (sortChain _) = _
  rw [hfix, replayChain_replayChain]

lemma markRefunded_id (i : Nat) (n a : Int) (r : RechargeRecord) :
    (markRefunded i n a r).id = r.id := by
  unfold markRefunded
  split <;> rfl

lemma markRefunded_occurredAt (i : Nat) (n a : Int) (r : RechargeRecord) :
    (markRefunded i n a r).occurredAt = r.occurredAt := by
  unfold markRefunded
  split <;> rfl

lemma markRefunded_changeDays (i : Nat) (n a : Int) (r : RechargeRecord) :
    (markRefunded i n a r).changeDays = r.changeDays := by
  unfold markRefunded
  split <;> rfl

lemma markRefunded_snap (i : Nat) (n a : Int) (r : RechargeRecord)
    (eb ea : Int) :
    markRefunded i n a
        { r with expireBefore := eb, expireAfter := ea } =
      { markRefunded i n a r with expireBefore := eb, expireAfter := ea } := by
  unfold markRefunded
  by_cases h : r.id = i ∧ r.refundedAt = none <;> simp [h]

lemma replayChain_map_markRefunded (i : Nat) (n a : Int) (s : Int)
    (l : List RechargeRecord) :
    replayChain s (l.map (markRefunded i n a)) =
      (((replayChain s l).1).map (markRefunded i n a),
        (replayChain s l).2) := by
  induction l generalizing s with
  | nil => rfl
  | cons row rest ih =>
      simp only [List.map_cons, replayChain_cons, markRefunded_occurredAt,
        markRefunded_changeDays, ih, markRefunded_snap, List.map_cons]

lemma sortChain_map_markRefunded (i : Nat) (n a : Int)
    (l : List RechargeRecord) :
    sortChain (l.map (markRefunded i n a)) =
      (sortChain l).map (markRefunded i n a) := by
  unfold sortChain
  rw [← List.map_insertionSort chainLe chainLe (markRefunded i n a) l]
  intro x _ y _
  constructor
  · intro h
    rw [chainLe_iff_key] at h ⊢
    unfold chainKey at h ⊢
    rw [markRefunded_occurredAt, markRefunded_id, markRefunded_occurredAt,
      markRefunded_id]
    exact h
  · intro h
    rw [chainLe_iff_key] at h ⊢
    unfold chainKey at h ⊢
    rw [markRefunded_occurredAt, markRefunded_id, markRefunded_occurredAt,
      markRefunded_id] at h
    exact h

lemma chainCoherent_markRefunded (st : LedgerState) (i : Nat) (n a : Int)
    (hc : chainCoherent st) :
    chainCoherent
      { st with records := st.records.map (markRefunded i n a) } := by
  unfold chainCoherent at *
  show replayChain 0 (sortChain (st.records.map (markRefunded i n a))) = _
  rw [sortChain_map_markRefunded, replayChain_map_markRefunded,
    congrArg Prod.fst hc, congrArg Prod.snd hc]

lemma chainCoherent_refund (st : LedgerState) (recordId : Nat)
    (refundAmountCents grantedBonusDays : Option Int) (now : Int)
    (hc : chainCoherent st) :
    chainCoherent
      (refundRechargeRecord st recordId refundAmountCents grantedBonusDays
        now).1 := by
  unfold refundRechargeRecord
  cases getRechargeRecordById st.records recordId with
  | none => exact hc
  | some target =>
      simp only []
      split
      · exact hc
      split
      · exact hc
      split
      · exact hc
      split
      · exact hc
      split
      · exact hc
      cases grantedBonusDays with
      | none =>
          exact chainCoherent_createAndRebuild _ _ _ _ _ _ _
            (chainCoherent_markRefunded _ _ _ _ hc)
      | some bonusDays =>
          exact chainCoherent_createAndRebuild _ _ _ _ _ _ _
            (chainCoherent_createAndRebuild _ _ _ _ _ _ _
              (chainCoherent_markRefunded _ _ _ _ hc))

lemma chainCoherent_applyBonusRecharge (st : LedgerState) (now : Int)
    (hc : chainCoherent st) :
    chainCoherent (applyBonusRecharge st now) :=
  chainCoherent_createAndRebuild _ _ _ _ _ _ _ hc

lemma chainCoherent_applyLedgerOp (st : LedgerState) (op : LedgerOp)
    (hc : chainCoherent st) : chainCoherent (applyLedgerOp st op) := by
  cases op with
  | recharge days reason pay bonusGranted now =>
      simp only [applyLedgerOp]
      split
      · exact hc
      split
      · exact hc
      split
      · exact chainCoherent_applyBonusRecharge _ _
          (chainCoherent_createAndRebuild _ _ _ _ _ _ _ hc)
      · exact chainCoherent_createAndRebuild _ _ _ _ _ _ _ hc
  | backfill days reason pay occurredAt bonusGranted now =>
      simp only [applyLedgerOp]
      split
      · exact hc
      split
      · exact hc
      split
      · exact hc
      split
      · exact hc
      split
      · exact chainCoherent_applyBonusRecharge _ _
          (chainCoherent_createAndRebuild _ _ _ _ _ _ _ hc)
      · exact chainCoherent_createAndRebuild _ _ _ _ _ _ _ hc
  | refund recordId refundAmountCents grantedBonusDays now =>
      simp only [applyLedgerOp]
      exact chainCoherent_refund _ _ _ _ _ hc

lemma chainCoherent_foldl (ops : List LedgerOp) (st : LedgerState)
    (hc : chainCoherent st) :
    chainCoherent (ops.foldl applyLedgerOp st) := by
  induction ops generalizing st with
  | nil => exact hc
  | cons op rest ih =>
      exact ih _ (chainCoherent_applyLedgerOp st op hc)

/-! ### Claims C1 and C2 -/

/-- C1: for every user and after any sequence of recharge, backfill and
refund operations, the stored `expire_at` equals the terminal running
expiry produced by replaying all of that user's recharge records
ordered by `(occurred_at, id)` ascending via the rebuild formula,
starting from zero. -/
theorem C1_chain_invariant (ops : List LedgerOp) :
    (ops.foldl applyLedgerOp initialLedgerState).expireAt =
      (replayChain 0
        (sortChain (ops.foldl applyLedgerOp initialLedgerState).records)).2 :=
  (congrArg Prod.snd
    (chainCoherent_foldl ops initialLedgerState chainCoherent_initial)).symm

/-- C2: starting from `expire_at = 0`, recharge A
(`occurred_at = 1000000`, +30 days, id 0) inserted first and backfill B
(`occurred_at = 500000`, +10 days, id 1) inserted second replay as B
then A with B's snapshots `(0, 1364000)`, A's snapshots
`(1364000, 3956000)`, and final stored `expire_at = 3956000`. -/
theorem C2_backfill_reflow_example :
    (applyLedgerOp (applyLedgerOp initialLedgerState
        (.recharge 30 .wechatPay 0 false 1000000))
      (.backfill 10 .wechatPay 0 500000 false 1000000)).expireAt =
        3956000 ∧
    (applyLedgerOp (applyLedgerOp initialLedgerState
        (.recharge 30 .wechatPay 0 false 1000000))
      (.backfill 10 .wechatPay 0 500000 false 1000000)).records.map
        (fun r => (r.id, r.expireBefore, r.expireAfter)) =
      [(1, 0, 1364000), (0, 1364000, 3956000)] := by
  constructor <;> rfl

/-! ### Refund analysis (claims C3 and C8) -/

lemma orderedInsert_last {a : RechargeRecord} :
    ∀ {l : List RechargeRecord}, (∀ b ∈ l, ¬ chainLe a b) →
      List.orderedInsert chainLe a l = l ++ [a]
  | [], _ => rfl
  | b :: t, h => by
      rw [List.orderedInsert, if_neg (h b (List.mem_cons_self b t)),
        orderedInsert_last (fun x hx => h x (List.mem_cons_of_mem b hx))]
      rfl

lemma replayChain_append_last (s : Int) (l : List RechargeRecord)
    (c : RechargeRecord) :
    replayChain s (l ++ [c]) =
      ((replayChain s l).1 ++
          [{ c with
              expireBefore := (replayChain s l).2
              expireAfter := max (replayChain s l).2 c.occurredAt +
                c.changeDays * SECONDS_PER_DAY }],
        max (replayChain s l).2 c.occurredAt +
          c.changeDays * SECONDS_PER_DAY) := by
  induction l generalizing s with
  | nil => rfl
  | cons row rest ih =>
      rw [List.cons_append, replayChain_cons, replayChain_cons, ih]
      rfl

lemma refund_success_eq {st : LedgerState} {recordId : Nat}
    {R : RechargeRecord} (amtOpt gb : Option Int) (now : Int)
    (hfind : getRechargeRecordById st.records recordId = some R)
    (h1 : R.refundedAt = none) (h2 : 0 < R.changeDays)
    (h3 : R.source ≠ .refundRollback)
    (h4 : ¬ (amtOpt.getD R.paymentAmountCents < 0 ∨
      R.paymentAmountCents < amtOpt.getD R.paymentAmountCents)) :
    refundRechargeRecord st recordId amtOpt gb now =
      (let marked := st.records.map
        (markRefunded recordId now (amtOpt.getD R.paymentAmountCents))
      let step1 := createAndRebuildRechargeRecord
        { st with records := marked } (-|R.changeDays|) .manualFix 0 now
        now .refundRollback
      match gb with
      | none => (step1.1, .ok step1.2)
      | some bonusDays =>
          ((createAndRebuildRechargeRecord step1.1 (-|bonusDays|)
            .manualFix 0 now now .refundRollback).1, .ok step1.2)) := by
  have hfind2 : st.records.find? (fun r => r.id == recordId) = some R :=
    hfind
  have hmem : R ∈ st.records := List.mem_of_find?_eq_some hfind2
  have hRid := List.find?_some hfind2
  have hany : st.records.any
      (fun r => r.id == recordId && r.refundedAt == none) = true :=
    List.any_eq_true.mpr ⟨R, hmem, by simp [hRid, h1]⟩
  unfold refundRechargeRecord
  rw [hfind]
  simp only [h1, Option.getD_none, Option.getD_some, hany,
    not_true_eq_false, if_false, lt_irrefl, ite_false]
  rw [if_neg (not_le.mpr h2), if_neg h3, if_neg h4]

/-- C3 counterexample: for the user whose only record R is a +30-day
normal recharge at `occurred_at = 1000`, refunding R at time 2000
succeeds (inserting compensating record id 1), but the rebuilt
`expire_at` is 1000 while replaying the chain without R and without the
compensating record (the empty chain) yields 0 — the claimed equality
fails because the replay clamps the running expiry up to each record's
`occurred_at`. -/
theorem C3_counterexample :
    (refundRechargeRecord (applyLedgerOp initialLedgerState
        (.recharge 30 .wechatPay 0 false 1000)) 0 none none 2000).2 =
      RefundOutcome.ok 1 ∧
    (refundRechargeRecord (applyLedgerOp initialLedgerState
        (.recharge 30 .wechatPay 0 false 1000)) 0 none none
          2000).1.expireAt = 1000 ∧
    (replayChain 0 (sortChain
        (((refundRechargeRecord (applyLedgerOp initialLedgerState
            (.recharge 30 .wechatPay 0 false 1000)) 0 none none
            2000).1.records).filter
          (fun r => r.id != 0 && r.id != 1)))).2 = 0 ∧
    (1000 : Int) ≠ 0 := by
  refine ⟨rfl, rfl, rfl, by decide⟩

lemma coreEq_update (r : RechargeRecord) (eb ea : Int) :
    coreEq { r with expireBefore := eb, expireAfter := ea } r :=
  ⟨rfl, rfl, rfl, rfl, rfl, rfl, rfl, rfl⟩

lemma coreEq_trans {a b c : RechargeRecord} (h1 : coreEq a b)
    (h2 : coreEq b c) : coreEq a c := by
  obtain ⟨e1, e2, e3, e4, e5, e6, e7, e8⟩ := h1
  obtain ⟨f1, f2, f3, f4, f5, f6, f7, f8⟩ := h2
  exact ⟨e1.trans f1, e2.trans f2, e3.trans f3, e4.trans f4, e5.trans f5,
    e6.trans f6, e7.trans f7, e8.trans f8⟩

lemma replayChain_mem (s : Int) {l : List RechargeRecord}
    {r : RechargeRecord} (h : r ∈ l) :
    ∃ r' ∈ (replayChain s l).1, coreEq r' r := by
  induction l generalizing s with
  | nil => cases h
  | cons row rest ih =>
      rw [replayChain_cons]
      rcases List.mem_cons.mp h with h1 | h2
      · subst h1
        exact ⟨_, List.mem_cons_self _ _, coreEq_update _ _ _⟩
      · obtain ⟨r', hr', hc⟩ := ih _ h2
        exact ⟨r', List.mem_cons_of_mem _ hr', hc⟩

lemma replayChain_mem_rev (s : Int) {l : List RechargeRecord}
    {r' : RechargeRecord} (h : r' ∈ (replayChain s l).1) :
    ∃ r ∈ l, coreEq r' r := by
  induction l generalizing s with
  | nil => cases h
  | cons row rest ih =>
      rw [replayChain_cons] at h
      rcases List.mem_cons.mp h with h1 | h2
      · subst h1
        exact ⟨row, List.mem_cons_self _ _, coreEq_update _ _ _⟩
      · obtain ⟨r, hr, hc⟩ := ih _ h2
        exact ⟨r, List.mem_cons_of_mem _ hr, hc⟩

lemma createAndRebuild_mem_fwd (st : LedgerState) (days : Int)
    (reason : RechargeReason) (pay occurredAt now : Int)
    (source : RechargeRecordSource) {r : RechargeRecord}
    (h : r ∈ st.records) :
    ∃ r' ∈ (createAndRebuildRechargeRecord st days reason pay occurredAt
      now source).1.records, coreEq r' r := by
  rw [createAndRebuild_eq]
  show ∃ r' ∈ (rebuildUserRechargeChain _).1, _
  unfold rebuildUserRechargeChain
  exact replayChain_mem _
    ((List.mem_insertionSort chainLe).mpr (List.mem_cons_of_mem _ h))

lemma createAndRebuild_mem_rev (st : LedgerState) (days : Int)
    (reason : RechargeReason) (pay occurredAt now : Int)
    (source : RechargeRecordSource) {r' : RechargeRecord}
    (h : r' ∈ (createAndRebuildRechargeRecord st days reason pay occurredAt
      now source).1.records) :
    coreEq r' (freshRecord st days reason pay occurredAt source) ∨
      ∃ r ∈ st.records, coreEq r' r := by
  rw [createAndRebuild_eq] at h
  replace h : r' ∈ (rebuildUserRechargeChain _).1 := h
  unfold rebuildUserRechargeChain at h
  obtain ⟨x, hx, hcx⟩ := replayChain_mem_rev _ h
  rcases List.mem_cons.mp ((List.mem_insertionSort chainLe).mp hx) with
    h1 | h2
  · subst h1
    exact Or.inl hcx
  · exact Or.inr ⟨x, h2, hcx⟩

/-- C3 (amended): refunding a not-yet-refunded positive recharge record
R at a time strictly after every stored record's `occurred_at` succeeds
and inserts a compensating record whose `change_days` is the negation
of R's (also when a granted invitee bonus additionally inserts its own
rollback record); when no granted bonus is attached, the rebuilt
`expire_at` equals
`max(expire_at before the refund, refund time) − R.change_days·86400`
(the compensating record, strictly latest by `occurred_at`, replays
last), which is not in general the expiry that replaying the chain
without R would produce, because every replay step clamps the running
expiry up to the record's `occurred_at`. On an `occurred_at` tie with
the refund second, or between the two same-second rollback records of a
granted-bonus refund, the final expiry additionally depends on the
store's `ORDER BY id` tie-break over random UUIDs, so no
tie-independent formula is asserted there. -/
theorem C3_amended_refund_reversal
    (st : LedgerState) (recordId : Nat) (R : RechargeRecord)
    (grantedBonusDays : Option Int) (now : Int)
    (hc : chainCoherent st)
    (hfind : getRechargeRecordById st.records recordId = some R)
    (h1 : R.refundedAt = none) (h2 : 0 < R.changeDays)
    (h3 : R.source ≠ .refundRollback) (h4 : 0 ≤ R.paymentAmountCents)
    (hocc : ∀ r ∈ st.records, r.occurredAt < now) :
    (refundRechargeRecord st recordId none grantedBonusDays now).2 =
        RefundOutcome.ok st.nextId ∧
      (∃ comp ∈ (refundRechargeRecord st recordId none grantedBonusDays
          now).1.records,
        comp.id = st.nextId ∧ comp.changeDays = -R.changeDays ∧
          comp.occurredAt = now ∧ comp.source = .refundRollback) ∧
      (grantedBonusDays = none →
        (refundRechargeRecord st recordId none grantedBonusDays
          now).1.expireAt =
          max st.expireAt now - R.changeDays * SECONDS_PER_DAY) := by
  have h4' : ¬ ((Option.getD (none : Option Int) R.paymentAmountCents) <
      0 ∨ R.paymentAmountCents <
        Option.getD (none : Option Int) R.paymentAmountCents) := by
    simpa using h4
  rw [refund_success_eq none grantedBonusDays now hfind h1 h2 h3 h4']
  simp only [Option.getD_none]
  have habs : |R.changeDays| = R.changeDays := abs_of_pos h2
  have hcM : chainCoherent
      { st with records :=
          st.records.map (markRefunded recordId now R.paymentAmountCents) } :=
    chainCoherent_markRefunded st recordId now R.paymentAmountCents hc
  have hrebuild : rebuildUserRechargeChain
      (freshRecord
        { st with records := st.records.map (markRefunded recordId now R.paymentAmountCents) }
        (-|R.changeDays|) .manualFix 0 now .refundRollback ::
          st.records.map (markRefunded recordId now R.paymentAmountCents)) =
      replayChain 0 (List.orderedInsert chainLe
        (freshRecord
          { st with records := st.records.map (markRefunded recordId now R.paymentAmountCents) }
          (-|R.changeDays|) .manualFix 0 now .refundRollback)
        (sortChain
          (st.records.map
            (markRefunded recordId now R.paymentAmountCents)))) :=
    rebuild_cons_of_head_eb rfl (coherent_head_eb hcM)
  have hnotle : ∀ b ∈ sortChain
      (st.records.map (markRefunded recordId now R.paymentAmountCents)),
      ¬ chainLe (freshRecord
        { st with records :=
            st.records.map (markRefunded recordId now R.paymentAmountCents) }
        (-|R.changeDays|) .manualFix 0 now .refundRollback) b := by
    intro b hb
    have hb2 : b ∈ st.records.map
        (markRefunded recordId now R.paymentAmountCents) :=
      (List.mem_insertionSort chainLe).mp hb
    obtain ⟨r, hrmem, hrb⟩ := List.mem_map.mp hb2
    have hbocc : b.occurredAt = r.occurredAt := by
      rw [← hrb, markRefunded_occurredAt]
    have hro := hocc r hrmem
    intro hcontra
    unfold chainLe freshRecord at hcontra
    simp only at hcontra
    omega
  have hlast := orderedInsert_last hnotle
  rw [hlast] at hrebuild
  rw [replayChain_append_last] at hrebuild
  have hsnd : (replayChain 0 (sortChain
      (st.records.map (markRefunded recordId now R.paymentAmountCents)))).2 =
      st.expireAt := congrArg Prod.snd hcM
  have hcomp1 : ∃ comp ∈ (createAndRebuildRechargeRecord
      { st with records := st.records.map (markRefunded recordId now R.paymentAmountCents) }
      (-|R.changeDays|) .manualFix 0 now now .refundRollback).1.records,
      comp.id = st.nextId ∧ comp.changeDays = -R.changeDays ∧
        comp.occurredAt = now ∧ comp.source = .refundRollback := by
    rw [createAndRebuild_eq]
    show ∃ comp ∈ (rebuildUserRechargeChain _).1, _
    rw [hrebuild]
    refine ⟨_, List.mem_append_right _ (List.mem_singleton_self _),
      rfl, ?_, rfl, rfl⟩
    show (-|R.changeDays| : Int) = -R.changeDays
    rw [habs]
  cases grantedBonusDays with
  | none =>
      refine ⟨rfl, hcomp1, ?_⟩
      intro _
      show (createAndRebuildRechargeRecord _ _ _ _ _ _ _).1.expireAt = _
      rw [createAndRebuild_eq]
      show (rebuildUserRechargeChain _).2 = _
      rw [hrebuild]
      show max (replayChain 0 (sortChain
          (st.records.map
            (markRefunded recordId now R.paymentAmountCents)))).2 now +
          (-|R.changeDays|) * SECONDS_PER_DAY = _
      rw [hsnd, habs]
      ring
  | some bonusDays =>
      refine ⟨rfl, ?_, ?_⟩
      · obtain ⟨comp, hcm, hcid, hcd, hco, hcs⟩ := hcomp1
        obtain ⟨comp2, hcm2, hcore⟩ :=
          createAndRebuild_mem_fwd
            (createAndRebuildRechargeRecord
              { st with records := st.records.map (markRefunded recordId now R.paymentAmountCents) }
              (-|R.changeDays|) .manualFix 0 now now .refundRollback).1
            (-|bonusDays|) .manualFix 0 now now .refundRollback hcm
        exact ⟨comp2, hcm2, hcore.1.trans hcid, hcore.2.1.trans hcd,
          hcore.2.2.2.2.1.trans hco, hcore.2.2.2.2.2.1.trans hcs⟩
      · intro hnone
        exact Option.noConfusion hnone

/-- Witness for `C3_amended_refund_reversal`: the single +30-day
recharge at `occurred_at = 1000` with a 1000.00 payment, refunded at
time 2000 (strictly later), with no granted bonus attached. -/
theorem C3_amended_refund_reversal_witness :
    chainCoherent (applyLedgerOp initialLedgerState
      (.recharge 30 .wechatPay 100000 false 1000)) ∧
    (refundRechargeRecord (applyLedgerOp initialLedgerState
        (.recharge 30 .wechatPay 100000 false 1000)) 0 none none
        2000).1.expireAt =
      max (applyLedgerOp initialLedgerState
        (.recharge 30 .wechatPay 100000 false 1000)).expireAt 2000 -
        30 * SECONDS_PER_DAY :=
  ⟨by decide, by
    have h := C3_amended_refund_reversal
      (applyLedgerOp initialLedgerState
        (.recharge 30 .wechatPay 100000 false 1000)) 0
      { id := 0
        changeDays := 30
        reason := .wechatPay
        paymentAmountCents := 100000
        occurredAt := 1000
        expireBefore := 0
        expireAfter := 2593000
        source := .normal
        refundedAt := none
        refundAmountCents := none } none 2000
      (by decide) (by decide) rfl (by decide) (by decide) (by decide)
      (by decide)
    exact h.2.2 rfl⟩

/-- C8: after a successful refund of record R, R's `refunded_at` is set
to the (positive) refund time; every subsequent refund attempt on R is
rejected as already refunded without changing any state; and a refund
attempt on any record whose source is `refund_rollback` is rejected
without changing any state. -/
theorem C8_refund_already_processed (st : LedgerState) (recordId : Nat)
    (R : RechargeRecord) (amtOpt gb : Option Int) (now1 : Int)
    (hfind : getRechargeRecordById st.records recordId = some R)
    (h1 : R.refundedAt = none) (h2 : 0 < R.changeDays)
    (h3 : R.source ≠ .refundRollback)
    (h4 : ¬ (amtOpt.getD R.paymentAmountCents < 0 ∨
      R.paymentAmountCents < amtOpt.getD R.paymentAmountCents))
    (h5 : 0 < now1)
    (hid : ∀ r ∈ st.records, r.id < st.nextId)
    (huniq : ∀ r ∈ st.records, r.id = recordId → r = R) :
    (∃ R', getRechargeRecordById
        (refundRechargeRecord st recordId amtOpt gb now1).1.records
          recordId = some R' ∧ R'.refundedAt = some now1) ∧
    (∀ (now2 : Int) (amt2 gb2 : Option Int),
      refundRechargeRecord
          (refundRechargeRecord st recordId amtOpt gb now1).1 recordId
          amt2 gb2 now2 =
        ((refundRechargeRecord st recordId amtOpt gb now1).1,
          .alreadyRefunded)) ∧
    (∀ (st2 : LedgerState) (rid2 : Nat) (R2 : RechargeRecord)
        (amt2 gb2 : Option Int) (now2 : Int),
      getRechargeRecordById st2.records rid2 = some R2 →
      R2.source = .refundRollback →
      (refundRechargeRecord st2 rid2 amt2 gb2 now2).1 = st2 ∧
        (refundRechargeRecord st2 rid2 amt2 gb2 now2).2.isRejected =
          true) := by
  have hfind2 : st.records.find? (fun r => r.id == recordId) = some R :=
    hfind
  have hmemR : R ∈ st.records := List.mem_of_find?_eq_some hfind2
  have hRid : R.id = recordId := by
    have := List.find?_some hfind2
    simpa using this
  have hridlt : recordId < st.nextId := hRid ▸ hid R hmemR
  rw [refund_success_eq amtOpt gb now1 hfind h1 h2 h3 h4]
  have hmarkedR : markRefunded recordId now1
      (amtOpt.getD R.paymentAmountCents) R =
      { R with refundedAt := some now1
               refundAmountCents := some (amtOpt.getD R.paymentAmountCents) } := by
    unfold markRefunded
    rw [if_pos ⟨hRid, h1⟩]
  -- rejection of any refund attempt on a record found already refunded,
  -- and of any attempt on a rollback-source record
  have hkey : ∀ (stF : LedgerState),
      (∀ r' ∈ stF.records, r'.id = recordId → r'.refundedAt = some now1) →
      (∃ x ∈ stF.records, x.id = recordId) →
      (∃ R', getRechargeRecordById stF.records recordId = some R' ∧
          R'.refundedAt = some now1) ∧
        (∀ (now2 : Int) (amt2 gb2 : Option Int),
          refundRechargeRecord stF recordId amt2 gb2 now2 =
            (stF, .alreadyRefunded)) := by
    intro stF hall hex
    have hsome : (stF.records.find? (fun r => r.id == recordId)).isSome := by
      rw [List.find?_isSome]
      obtain ⟨x, hx, hxid⟩ := hex
      exact ⟨x, hx, by simpa using hxid⟩
    obtain ⟨R', hR'⟩ := Option.isSome_iff_exists.mp hsome
    have hmemR' : R' ∈ stF.records := List.mem_of_find?_eq_some hR'
    have hR'id : R'.id = recordId := by
      have := List.find?_some hR'
      simpa using this
    have hRref : R'.refundedAt = some now1 := hall R' hmemR' hR'id
    refine ⟨⟨R', hR', hRref⟩, ?_⟩
    intro now2 amt2 gb2
    unfold refundRechargeRecord
    have hfindF : getRechargeRecordById stF.records recordId = some R' :=
      hR'
    rw [hfindF]
    simp only []
    rw [hRref]
    rw [if_pos (by simpa using h5)]
  have hpartC : ∀ (st2 : LedgerState) (rid2 : Nat) (R2 : RechargeRecord)
      (amt2 gb2 : Option Int) (now2 : Int),
      getRechargeRecordById st2.records rid2 = some R2 →
      R2.source = .refundRollback →
      (refundRechargeRecord st2 rid2 amt2 gb2 now2).1 = st2 ∧
        (refundRechargeRecord st2 rid2 amt2 gb2 now2).2.isRejected =
          true := by
    intro st2 rid2 R2 amt2 gb2 now2 hf hsrc
    unfold refundRechargeRecord
    rw [hf]
    simp only []
    by_cases hc1 : 0 < R2.refundedAt.getD 0
    · rw [if_pos hc1]
      exact ⟨rfl, rfl⟩
    rw [if_neg hc1]
    by_cases hc2 : R2.changeDays ≤ 0
    · rw [if_pos hc2]
      exact ⟨rfl, rfl⟩
    rw [if_neg hc2, if_pos hsrc]
    exact ⟨rfl, rfl⟩
  -- facts about the marked table
  have hmarkmem : markRefunded recordId now1
      (amtOpt.getD R.paymentAmountCents) R ∈
      st.records.map
        (markRefunded recordId now1 (amtOpt.getD R.paymentAmountCents)) :=
    List.mem_map_of_mem _ hmemR
  have hmarkall : ∀ x ∈ st.records.map
      (markRefunded recordId now1 (amtOpt.getD R.paymentAmountCents)),
      x.id = recordId → x.refundedAt = some now1 := by
    intro x hx hxid
    obtain ⟨r0, hr0, hr0x⟩ := List.mem_map.mp hx
    have : r0.id = recordId := by
      rw [← hxid, ← hr0x, markRefunded_id]
    have hr0R : r0 = R := huniq r0 hr0 this
    rw [← hr0x, hr0R, hmarkedR]
  have hall1 : ∀ r' ∈ (createAndRebuildRechargeRecord
      { st with records := st.records.map (markRefunded recordId now1 (amtOpt.getD R.paymentAmountCents)) }
      (-|R.changeDays|) .manualFix 0 now1 now1
      .refundRollback).1.records,
      r'.id = recordId → r'.refundedAt = some now1 := by
    intro r' hr' hr'id
    rcases createAndRebuild_mem_rev _ _ _ _ _ _ _ hr' with hcf | hcm
    · exact absurd (hcf.1.symm.trans hr'id)
        (by show ¬ st.nextId = recordId; omega)
    · obtain ⟨x, hx, hcx⟩ := hcm
      rw [hcx.2.2.2.2.2.2.1]
      exact hmarkall x hx (hcx.1.symm.trans hr'id)
  have hex1 : ∃ x ∈ (createAndRebuildRechargeRecord
      { st with records := st.records.map (markRefunded recordId now1 (amtOpt.getD R.paymentAmountCents)) }
      (-|R.changeDays|) .manualFix 0 now1 now1
      .refundRollback).1.records, x.id = recordId := by
    obtain ⟨r', hr', hc⟩ :=
      createAndRebuild_mem_fwd
        { st with records := st.records.map (markRefunded recordId now1 (amtOpt.getD R.paymentAmountCents)) }
        (-|R.changeDays|) .manualFix 0 now1 now1 .refundRollback hmarkmem
    refine ⟨r', hr', ?_⟩
    rw [hc.1, hmarkedR]
    exact hRid
  cases gb with
  | none =>
      have hres := hkey _ hall1 hex1
      exact ⟨hres.1, hres.2, hpartC⟩
  | some bonusDays =>
      have hall2 : ∀ r' ∈ (createAndRebuildRechargeRecord
          (createAndRebuildRechargeRecord
            { st with records := st.records.map (markRefunded recordId now1 (amtOpt.getD R.paymentAmountCents)) }
            (-|R.changeDays|) .manualFix 0 now1 now1 .refundRollback).1
          (-|bonusDays|) .manualFix 0 now1 now1
          .refundRollback).1.records,
          r'.id = recordId → r'.refundedAt = some now1 := by
        intro r' hr' hr'id
        rcases createAndRebuild_mem_rev _ _ _ _ _ _ _ hr' with hcf | hcm
        · exact absurd (hcf.1.symm.trans hr'id)
            (by show ¬ (st.nextId + 1 = recordId); omega)
        · obtain ⟨x, hx, hcx⟩ := hcm
          rw [hcx.2.2.2.2.2.2.1]
          exact hall1 x hx (hcx.1.symm.trans hr'id)
      have hex2 : ∃ x ∈ (createAndRebuildRechargeRecord
          (createAndRebuildRechargeRecord
            { st with records := st.records.map (markRefunded recordId now1 (amtOpt.getD R.paymentAmountCents)) }
            (-|R.changeDays|) .manualFix 0 now1 now1 .refundRollback).1
          (-|bonusDays|) .manualFix 0 now1 now1
          .refundRollback).1.records, x.id = recordId := by
        obtain ⟨x1, hx1, hcx1⟩ := hex1
        obtain ⟨r2, hr2, hc2⟩ :=
          createAndRebuild_mem_fwd _ (-|bonusDays|) .manualFix 0
            now1 now1 .refundRollback hx1
        exact ⟨r2, hr2, hc2.1.trans hcx1⟩
      have hres := hkey _ hall2 hex2
      exact ⟨hres.1, hres.2, hpartC⟩

/-- Witness for `C8_refund_already_processed`: the single +30-day
recharge at `occurred_at = 1000`, refunded at time 2000; its
`refunded_at` is then `some 2000`. -/
theorem C8_refund_already_processed_witness :
    (0 : Int) < 2000 ∧
    (∃ R', getRechargeRecordById
        (refundRechargeRecord (applyLedgerOp initialLedgerState
          (.recharge 30 .wechatPay 100000 false 1000)) 0 none none
          2000).1.records 0 = some R' ∧
      R'.refundedAt = some 2000) :=
  ⟨by decide,
    (C8_refund_already_processed
      (applyLedgerOp initialLedgerState
        (.recharge 30 .wechatPay 100000 false 1000)) 0
      { id := 0
        changeDays := 30
        reason := .wechatPay
        paymentAmountCents := 100000
        occurredAt := 1000
        expireBefore := 0
        expireAfter := 2593000
        source := .normal
        refundedAt := none
        refundAmountCents := none } none none 2000
      rfl (by decide) (by decide) (by decide) (by decide) (by decide)
      (by decide) (by decide)).1⟩

/-! ### Referral-engine claims -/

/-- C4: `createReferralRewardForRecharge` creates a ledger entry exactly
when the trigger's payment amount is positive, its reason is a payment
channel or the platform order, its source is `normal`, the invitee has
a bound inviter, the computed amount is positive, and no entry exists
yet for the trigger; whenever it does not create (in particular on a
zero computed amount), the store is unchanged; and a created entry's
amount is `floor(paymentAmountCents * rateBps / 10000)`. -/
theorem C4_reward_eligibility_and_amount (db : ReferralDb)
    (inviteeUserId : String) (rechargeRecordId : Nat)
    (reason : RechargeReason) (source : RechargeRecordSource)
    (paymentAmountCents unlockAt now : Int) :
    (isReferralRewardEligible reason source paymentAmountCents = true ↔
      (0 < paymentAmountCents ∧
        (reason = .wechatPay ∨ reason = .alipay ∨
          reason = .platformOrder) ∧ source = .normal)) ∧
    ((createReferralRewardForRecharge db inviteeUserId rechargeRecordId
        reason source paymentAmountCents unlockAt now).2.created =
          false →
      (createReferralRewardForRecharge db inviteeUserId rechargeRecordId
        reason source paymentAmountCents unlockAt now).1 = db) ∧
    ((createReferralRewardForRecharge db inviteeUserId rechargeRecordId
        reason source paymentAmountCents unlockAt now).2.created =
          true ↔
      (isReferralRewardEligible reason source paymentAmountCents =
          true ∧
        (∃ b ∈ db.referrals, b.inviteeUserId = inviteeUserId) ∧
        0 < calculateRewardAmountCents paymentAmountCents
          REFERRAL_REWARD_RATE_BPS ∧
        ∀ e ∈ db.rewards, e.rechargeRecordId ≠ rechargeRecordId)) ∧
    ((createReferralRewardForRecharge db inviteeUserId rechargeRecordId
        reason source paymentAmountCents unlockAt now).2.created =
          true →
      ∃ entry, (createReferralRewardForRecharge db inviteeUserId
          rechargeRecordId reason source paymentAmountCents unlockAt
          now).1.rewards = db.rewards ++ [entry] ∧
        entry.rechargeRecordId = rechargeRecordId ∧
        entry.rewardRateBps = REFERRAL_REWARD_RATE_BPS ∧
        entry.rewardAmountCents =
          paymentAmountCents * REFERRAL_REWARD_RATE_BPS / 10000) := by
  refine ⟨?_, ?_⟩
  · unfold isReferralRewardEligible REWARD_ELIGIBLE_REASONS
      REWARD_ELIGIBLE_SOURCES
    simp [Bool.and_eq_true, Bool.or_eq_true, decide_eq_true_eq]
    tauto
  unfold createReferralRewardForRecharge
  by_cases helig : isReferralRewardEligible reason source
      paymentAmountCents = true
  · rw [if_neg (by simp [helig])]
    cases hb : db.referrals.find?
        (fun b => b.inviteeUserId == inviteeUserId) with
    | none =>
        refine ⟨fun _ => rfl, ?_, ?_⟩
        · simp only [Bool.false_eq_true, false_iff]
          rintro ⟨-, ⟨b, hbmem, hbid⟩, -, -⟩
          have := List.find?_eq_none.mp hb b hbmem
          simp [hbid] at this
        · intro hcr
          cases hcr
    | some referral =>
        simp only []
        by_cases hamt : calculateRewardAmountCents paymentAmountCents
            REFERRAL_REWARD_RATE_BPS ≤ 0
        · rw [if_pos hamt]
          refine ⟨fun _ => rfl, ?_, ?_⟩
          · simp only [Bool.false_eq_true, false_iff]
            rintro ⟨-, -, hpos, -⟩
            omega
          · intro hcr
            cases hcr
        · rw [if_neg hamt]
          cases hdup : db.rewards.find?
              (fun e => e.rechargeRecordId == rechargeRecordId) with
          | some e0 =>
              refine ⟨fun _ => rfl, ?_, ?_⟩
              · simp only [Bool.false_eq_true, false_iff]
                rintro ⟨-, -, -, hnone⟩
                have hm := List.mem_of_find?_eq_some hdup
                have hp := List.find?_some hdup
                exact hnone e0 hm (by simpa using hp)
              · intro hcr
                cases hcr
          | none =>
              refine ⟨?_, ?_, ?_⟩
              · intro hcr
                cases hcr
              · simp only [true_iff]
                refine ⟨helig, ?_, by omega, ?_⟩
                · refine ⟨referral, List.mem_of_find?_eq_some hb, ?_⟩
                  have := List.find?_some hb
                  simpa using this
                · intro e he
                  have := List.find?_eq_none.mp hdup e he
                  simpa using this
              · intro _
                refine ⟨_, rfl, rfl, rfl, ?_⟩
                show calculateRewardAmountCents paymentAmountCents
                    REFERRAL_REWARD_RATE_BPS =
                  paymentAmountCents * REFERRAL_REWARD_RATE_BPS / 10000
                unfold calculateRewardAmountCents
                rw [if_neg (by
                  intro hle
                  apply hamt
                  unfold calculateRewardAmountCents
                  rw [if_pos hle]), if_neg (by
                  unfold REFERRAL_REWARD_RATE_BPS
                  omega)]
  · rw [if_pos (by simp [helig])]
    refine ⟨fun _ => rfl, ?_, ?_⟩
    · simp only [Bool.false_eq_true, false_iff]
      rintro ⟨he, -⟩
      exact helig he
    · intro hcr
      cases hcr

lemma createReward_state_cases (db : ReferralDb) (inviteeUserId : String)
    (rechargeRecordId : Nat) (reason : RechargeReason)
    (source : RechargeRecordSource) (paymentAmountCents unlockAt now : Int) :
    (createReferralRewardForRecharge db inviteeUserId rechargeRecordId
        reason source paymentAmountCents unlockAt now).1 = db ∨
      (∃ e, (createReferralRewardForRecharge db inviteeUserId
          rechargeRecordId reason source paymentAmountCents unlockAt
          now).1.referrals = db.referrals ∧
        (createReferralRewardForRecharge db inviteeUserId rechargeRecordId
          reason source paymentAmountCents unlockAt now).1.rewards =
          db.rewards ++ [e] ∧
        e.rechargeRecordId = rechargeRecordId) := by
  unfold createReferralRewardForRecharge
  by_cases helig : isReferralRewardEligible reason source
      paymentAmountCents = true
  · rw [if_neg (by simp [helig])]
    cases hb : db.referrals.find?
        (fun b => b.inviteeUserId == inviteeUserId) with
    | none => exact Or.inl rfl
    | some referral =>
        simp only []
        by_cases hamt : calculateRewardAmountCents paymentAmountCents
            REFERRAL_REWARD_RATE_BPS ≤ 0
        · rw [if_pos hamt]
          exact Or.inl rfl
        · rw [if_neg hamt]
          cases hdup : db.rewards.find?
              (fun e => e.rechargeRecordId == rechargeRecordId) with
          | some e0 => exact Or.inl rfl
          | none => exact Or.inr ⟨_, rfl, rfl, rfl⟩
  · rw [if_pos (by simp [helig])]
    exact Or.inl rfl

lemma createReward_noop_of_dup (db : ReferralDb) (inviteeUserId : String)
    (rechargeRecordId : Nat) (reason : RechargeReason)
    (source : RechargeRecordSource) (paymentAmountCents unlockAt now : Int)
    (hdup : ∃ e ∈ db.rewards, e.rechargeRecordId = rechargeRecordId) :
    (createReferralRewardForRecharge db inviteeUserId rechargeRecordId
      reason source paymentAmountCents unlockAt now).1 = db := by
  unfold createReferralRewardForRecharge
  by_cases helig : isReferralRewardEligible reason source
      paymentAmountCents = true
  · rw [if_neg (by simp [helig])]
    cases hb : db.referrals.find?
        (fun b => b.inviteeUserId == inviteeUserId) with
    | none => rfl
    | some referral =>
        simp only []
        by_cases hamt : calculateRewardAmountCents paymentAmountCents
            REFERRAL_REWARD_RATE_BPS ≤ 0
        · rw [if_pos hamt]
        · rw [if_neg hamt]
          cases hdup2 : db.rewards.find?
              (fun e => e.rechargeRecordId == rechargeRecordId) with
          | some e0 => rfl
          | none =>
              obtain ⟨e, hmem, hrid⟩ := hdup
              have := List.find?_eq_none.mp hdup2 e hmem
              simp [hrid] at this
  · rw [if_pos (by simp [helig])]

/-- C6: calling `createReferralRewardForRecharge` twice with the same
trigger recharge record never yields two ledger entries — the second
call leaves the store exactly as the first call left it. -/
theorem C6_reward_idempotent (db : ReferralDb) (inviteeUserId : String)
    (rechargeRecordId : Nat) (reason : RechargeReason)
    (source : RechargeRecordSource) (paymentAmountCents unlockAt now : Int) :
    (createReferralRewardForRecharge
      (createReferralRewardForRecharge db inviteeUserId rechargeRecordId
        reason source paymentAmountCents unlockAt now).1
      inviteeUserId rechargeRecordId reason source paymentAmountCents
      unlockAt now).1 =
    (createReferralRewardForRecharge db inviteeUserId rechargeRecordId
      reason source paymentAmountCents unlockAt now).1 := by
  rcases createReward_state_cases db inviteeUserId rechargeRecordId reason
      source paymentAmountCents unlockAt now with h1 | ⟨e, href, hrew, hrid⟩
  · rw [h1]
    exact h1
  · apply createReward_noop_of_dup
    rw [hrew]
    exact ⟨e, List.mem_append_right _ (List.mem_singleton_self e), hrid⟩

lemma foldl_add_shift : ∀ (l : List ReferralRewardEntry) (s : Int),
    l.foldl (fun sum row => sum + row.rewardAmountCents) s =
      s + l.foldl (fun sum row => sum + row.rewardAmountCents) 0
  | [], s => by simp
  | e :: t, s => by
      show List.foldl _ (s + e.rewardAmountCents) t = _
      rw [foldl_add_shift t (s + e.rewardAmountCents)]
      have h0 : List.foldl
          (fun sum row => sum + row.rewardAmountCents) 0 (e :: t) =
          (0 + e.rewardAmountCents) +
            List.foldl (fun sum row => sum + row.rewardAmountCents) 0 t := by
        show List.foldl _ (0 + e.rewardAmountCents) t = _
        rw [foldl_add_shift t (0 + e.rewardAmountCents)]
      rw [h0]
      ring

lemma sumRewardCents_cons (e : ReferralRewardEntry)
    (t : List ReferralRewardEntry) :
    sumRewardCents (e :: t) = e.rewardAmountCents + sumRewardCents t := by
  unfold sumRewardCents
  show List.foldl _ (0 + e.rewardAmountCents) t = _
  rw [foldl_add_shift t (0 + e.rewardAmountCents)]
  ring

lemma sumRewardCents_nonneg : ∀ {l : List ReferralRewardEntry},
    (∀ e ∈ l, 0 < e.rewardAmountCents) → 0 ≤ sumRewardCents l
  | [], _ => le_refl 0
  | e :: t, h => by
      rw [sumRewardCents_cons]
      have h1 := h e (List.mem_cons_self e t)
      have h2 := sumRewardCents_nonneg
        (fun x hx => h x (List.mem_cons_of_mem _ hx))
      omega

lemma sumRewardCents_pos : ∀ {l : List ReferralRewardEntry}, l ≠ [] →
    (∀ e ∈ l, 0 < e.rewardAmountCents) → 0 < sumRewardCents l
  | [], hne, _ => absurd rfl hne
  | e :: t, _, h => by
      rw [sumRewardCents_cons]
      have h1 := h e (List.mem_cons_self e t)
      have h2 := sumRewardCents_nonneg
        (fun x hx => h x (List.mem_cons_of_mem _ hx))
      omega

lemma withdrawFlip_of_cond {inviter : String} {wid : Nat} {now : Int}
    {e : ReferralRewardEntry}
    (h : e.inviterUserId = inviter ∧ e.status = .available) :
    withdrawFlip inviter wid now e =
      { e with
          status := .withdrawn
          withdrawnAt := some now
          withdrawalId := some wid
          updatedAt := now } :=
  if_pos h

lemma withdrawFlip_of_not {inviter : String} {wid : Nat} {now : Int}
    {e : ReferralRewardEntry}
    (h : ¬ (e.inviterUserId = inviter ∧ e.status = .available)) :
    withdrawFlip inviter wid now e = e :=
  if_neg h

lemma flip_no_available (inviter : String) (wid : Nat) (now : Int)
    (l : List ReferralRewardEntry) :
    ∀ e ∈ l.map (withdrawFlip inviter wid now),
      ¬ (e.inviterUserId = inviter ∧
        e.status = ReferralRewardStatus.available) := by
  intro e he hcontra
  obtain ⟨x, hx, hxe⟩ := List.mem_map.mp he
  by_cases hc : x.inviterUserId = inviter ∧ x.status = .available
  · rw [← hxe, withdrawFlip_of_cond hc] at hcontra
    cases hcontra.2
  · rw [← hxe, withdrawFlip_of_not hc] at hcontra
    exact hc hcontra

lemma flip_withdrawn (inviter : String) (wid : Nat) (now : Int)
    (l : List ReferralRewardEntry)
    (hfresh : ∀ e ∈ l, e.withdrawalId ≠ some wid) :
    ∀ e ∈ l.map (withdrawFlip inviter wid now),
      e.withdrawalId = some wid →
        e.status = ReferralRewardStatus.withdrawn := by
  intro e he hw
  obtain ⟨x, hx, hxe⟩ := List.mem_map.mp he
  by_cases hc : x.inviterUserId = inviter ∧ x.status = .available
  · rw [← hxe, withdrawFlip_of_cond hc]
  · rw [← hxe, withdrawFlip_of_not hc] at hw
    exact absurd hw (hfresh x hx)

lemma flip_filter_sum (inviter : String) (wid : Nat) (now : Int) :
    ∀ (l : List ReferralRewardEntry),
      (∀ e ∈ l, e.withdrawalId ≠ some wid) →
      sumRewardCents ((l.map (withdrawFlip inviter wid now)).filter
          (fun e => e.withdrawalId == some wid)) =
        sumRewardCents (l.filter (fun e =>
          e.inviterUserId == inviter &&
            e.status == ReferralRewardStatus.available))
  | [], _ => rfl
  | e :: t, hfresh => by
      have ht := fun x hx => hfresh x (List.mem_cons_of_mem _ hx)
      by_cases hc : e.inviterUserId = inviter ∧ e.status = .available
      · rw [List.map_cons, withdrawFlip_of_cond hc,
          List.filter_cons_of_pos (by simp),
          List.filter_cons_of_pos (by simp [hc.1, hc.2]),
          sumRewardCents_cons, sumRewardCents_cons,
          flip_filter_sum inviter wid now t ht]
      · rw [List.map_cons, withdrawFlip_of_not hc,
          List.filter_cons_of_neg
            (by simpa using hfresh e (List.mem_cons_self e t)),
          List.filter_cons_of_neg (by simpa using hc)]
        exact flip_filter_sum inviter wid now t ht

/-- C5: withdrawal exactness. When the inviter has at least one
`available` reward (reward amounts are positive, and no stored entry
already references the fresh withdrawal id), `withdraw` records one
withdrawal whose amount is the sum of all of the inviter's `available`
entries, flips exactly those entries to `withdrawn` referencing it (the
flipped entries' amounts sum back to the reported amount and no
`available` entry of the inviter remains); with no `available` entries
it returns `null` (`NothingToWithdraw`) and changes nothing, and
whenever it returns `null` no withdrawal was created. -/
theorem C5_withdrawal_exactness (db : ReferralDb)
    (inviterUserId processedByAdminId : String) (note : Option String)
    (now : Int)
    (hpos : ∀ e ∈ db.rewards, 0 < e.rewardAmountCents)
    (hfresh : ∀ e ∈ db.rewards, e.withdrawalId ≠ some db.nextId) :
    (db.rewards.filter (fun e =>
        e.inviterUserId == inviterUserId &&
          e.status == ReferralRewardStatus.available) = [] →
      withdrawAvailableReferralRewards db inviterUserId
        processedByAdminId note now = (db, none)) ∧
    ((withdrawAvailableReferralRewards db inviterUserId
        processedByAdminId note now).2 = none →
      (withdrawAvailableReferralRewards db inviterUserId
        processedByAdminId note now).1 = db) ∧
    (db.rewards.filter (fun e =>
        e.inviterUserId == inviterUserId &&
          e.status == ReferralRewardStatus.available) ≠ [] →
      ∃ res, (withdrawAvailableReferralRewards db inviterUserId
          processedByAdminId note now).2 = some res ∧
        res.withdrawnAmountCents = sumRewardCents
          (db.rewards.filter (fun e =>
            e.inviterUserId == inviterUserId &&
              e.status == ReferralRewardStatus.available)) ∧
        (∃ w, (withdrawAvailableReferralRewards db inviterUserId
            processedByAdminId note now).1.withdrawals =
              db.withdrawals ++ [w] ∧
          w.inviterUserId = inviterUserId ∧
          w.amountCents = res.withdrawnAmountCents) ∧
        (∀ e ∈ (withdrawAvailableReferralRewards db inviterUserId
            processedByAdminId note now).1.rewards,
          ¬ (e.inviterUserId = inviterUserId ∧
            e.status = ReferralRewardStatus.available)) ∧
        sumRewardCents ((withdrawAvailableReferralRewards db
            inviterUserId processedByAdminId note
            now).1.rewards.filter
          (fun e => e.withdrawalId == some db.nextId)) =
          res.withdrawnAmountCents ∧
        (∀ e ∈ (withdrawAvailableReferralRewards db inviterUserId
            processedByAdminId note now).1.rewards,
          e.withdrawalId = some db.nextId →
            e.status = ReferralRewardStatus.withdrawn)) := by
  refine ⟨?_, ?_, ?_⟩
  · intro h
    unfold withdrawAvailableReferralRewards
    rw [h]
    rfl
  · unfold withdrawAvailableReferralRewards
    simp only []
    split_ifs with hA hB
    · intro _
      rfl
    · intro _
      rfl
    · intro h
      simp at h
  · intro hne
    have hsum : 0 < sumRewardCents (db.rewards.filter (fun e =>
        e.inviterUserId == inviterUserId &&
          e.status == ReferralRewardStatus.available)) := by
      refine sumRewardCents_pos hne ?_
      intro e he
      exact hpos e (List.mem_filter.mp he).1
    unfold withdrawAvailableReferralRewards
    simp only []
    rw [if_neg (by
      rw [List.isEmpty_iff]
      exact hne), if_neg (not_le.mpr hsum)]
    refine ⟨_, rfl, rfl, ⟨_, rfl, rfl, rfl⟩,
      flip_no_available inviterUserId db.nextId now db.rewards, ?_,
      flip_withdrawn inviterUserId db.nextId now db.rewards hfresh⟩
    exact flip_filter_sum inviterUserId db.nextId now db.rewards hfresh

/-- Witness for `C5_withdrawal_exactness`: one inviter `"a"` with one
`available` 50-cent reward from invitee `"b"`. -/
theorem C5_withdrawal_exactness_witness :
    (∀ e ∈ ({ users := []
              referrals := []
              rewards := [{ id := 0
                            inviterUserId := "a"
                            inviteeUserId := "b"
                            rechargeRecordId := 7
                            rechargeReason := .wechatPay
                            rechargeSource := .normal
                            paymentAmountCents := 500
                            rewardRateBps := 1000
                            rewardAmountCents := 50
                            status := .available
                            unlockAt := 0
                            createdAt := 0
                            updatedAt := 0
                            availableAt := some 0
                            canceledAt := none
                            canceledReason := none
                            withdrawnAt := none
                            withdrawalId := none }]
              bonusGrants := []
              withdrawals := []
              nextId := 1 } : ReferralDb).rewards,
        0 < e.rewardAmountCents) ∧
    (∃ res, (withdrawAvailableReferralRewards
        { users := []
          referrals := []
          rewards := [{ id := 0
                        inviterUserId := "a"
                        inviteeUserId := "b"
                        rechargeRecordId := 7
                        rechargeReason := .wechatPay
                        rechargeSource := .normal
                        paymentAmountCents := 500
                        rewardRateBps := 1000
                        rewardAmountCents := 50
                        status := .available
                        unlockAt := 0
                        createdAt := 0
                        updatedAt := 0
                        availableAt := some 0
                        canceledAt := none
                        canceledReason := none
                        withdrawnAt := none
                        withdrawalId := none }]
          bonusGrants := []
          withdrawals := []
          nextId := 1 } "a" "admin" none 5).2 = some res ∧
      res.withdrawnAmountCents = 50) := by
  constructor
  · decide
  · obtain ⟨res, hres, hamt, -⟩ :=
      (C5_withdrawal_exactness
        { users := []
          referrals := []
          rewards := [{ id := 0
                        inviterUserId := "a"
                        inviteeUserId := "b"
                        rechargeRecordId := 7
                        rechargeReason := .wechatPay
                        rechargeSource := .normal
                        paymentAmountCents := 500
                        rewardRateBps := 1000
                        rewardAmountCents := 50
                        status := .available
                        unlockAt := 0
                        createdAt := 0
                        updatedAt := 0
                        availableAt := some 0
                        canceledAt := none
                        canceledReason := none
                        withdrawnAt := none
                        withdrawalId := none }]
          bonusGrants := []
          withdrawals := []
          nextId := 1 } "a" "admin" none 5 (by decide)
        (by decide)).2.2 (by decide)
    exact ⟨res, hres, by rw [hamt]; decide⟩

lemma find?_append_of_none {α : Type} (p : α → Bool) {l1 : List α}
    (l2 : List α) (h : l1.find? p = none) :
    (l1 ++ l2).find? p = l2.find? p := by
  induction l1 with
  | nil => rfl
  | cons x t ih =>
      cases hpx : p x with
      | true =>
          rw [List.find?_cons_of_pos _ hpx] at h
          cases h
      | false =>
          rw [List.find?_cons_of_neg _ (by simp [hpx])] at h
          rw [List.cons_append, List.find?_cons_of_neg _ (by simp [hpx])]
          exact ih h

lemma bind_fresh_eq (db : ReferralDb) (a i : String)
    (adminId : Option String) (t1 : Int)
    (ha : trimId a = a) (hi : trimId i = i) (hai : a ≠ i)
    {inviter invitee : UserProfile}
    (hA : db.users.find? (fun u => u.id == a) = some inviter)
    (hI : db.users.find? (fun u => u.id == i) = some invitee)
    (hunbound : db.referrals.find? (fun x => x.inviteeUserId == i) =
      none) :
    bindUserReferral db a i adminId t1 false =
      ({ db with
          referrals := db.referrals ++
            [{ id := db.nextId
               inviterUserId := a
               inviteeUserId := i
               boundByAdminId := adminId
               createdAt := t1 }]
          nextId := db.nextId + 1 },
        .ok a i t1 false) := by
  unfold bindUserReferral
  simp only [ha, hi]
  rw [if_neg hai, hA]
  simp only []
  rw [hI]
  simp only []
  rw [hunbound]
  simp only []
  rw [if_neg (by simp)]

/-- C7: for invitee I bound to inviter A, binding I to A again succeeds
with `alreadyBound = true` returning the same `boundAt` as the first
bind, leaving the store unchanged; and binding I to a different inviter
B fails `InviteeAlreadyBound`, also leaving the store unchanged. -/
theorem C7_bind_idempotence (db : ReferralDb) (a i b : String)
    (adminId : Option String) (t1 t2 t3 : Int) (c2 c3 : Bool)
    (ha : trimId a = a) (hi : trimId i = i) (hbtrim : trimId b = b)
    (hai : a ≠ i) (hbi : b ≠ i) (hba : b ≠ a)
    (hA : (db.users.find? (fun u => u.id == a)).isSome = true)
    (hI : (db.users.find? (fun u => u.id == i)).isSome = true)
    (hB : (db.users.find? (fun u => u.id == b)).isSome = true)
    (hunbound : db.referrals.find? (fun x => x.inviteeUserId == i) =
      none) :
    (bindUserReferral db a i adminId t1 false).2 = .ok a i t1 false ∧
    (bindUserReferral (bindUserReferral db a i adminId t1 false).1 a i
      adminId t2 c2).2 = .ok a i t1 true ∧
    (bindUserReferral (bindUserReferral db a i adminId t1 false).1 a i
      adminId t2 c2).1 = (bindUserReferral db a i adminId t1 false).1 ∧
    (bindUserReferral (bindUserReferral db a i adminId t1 false).1 b i
      adminId t3 c3).2 = .inviteeAlreadyBound ∧
    (bindUserReferral (bindUserReferral db a i adminId t1 false).1 b i
      adminId t3 c3).1 = (bindUserReferral db a i adminId t1 false).1 := by
  obtain ⟨inviter, hinv⟩ := Option.isSome_iff_exists.mp hA
  obtain ⟨invitee, hinvee⟩ := Option.isSome_iff_exists.mp hI
  obtain ⟨userB, hub⟩ := Option.isSome_iff_exists.mp hB
  have h1 := bind_fresh_eq db a i adminId t1 ha hi hai hinv hinvee
    hunbound
  rw [h1]
  have hfind1 : List.find? (fun x => x.inviteeUserId == i)
      (db.referrals ++
        [({ id := db.nextId
            inviterUserId := a
            inviteeUserId := i
            boundByAdminId := adminId
            createdAt := t1 } : ReferralBinding)]) =
      some
        { id := db.nextId
          inviterUserId := a
          inviteeUserId := i
          boundByAdminId := adminId
          createdAt := t1 } := by
    rw [find?_append_of_none _ _ hunbound]
    exact List.find?_cons_of_pos _ (by simp)
  refine ⟨rfl, ?_, ?_, ?_, ?_⟩
  · simp only []
    unfold bindUserReferral
    simp only [ha, hi, hbtrim]
    rw [if_neg hai, hinv]
    simp only []
    rw [hinvee]
    simp only []
    rw [hfind1]
    simp
  · simp only []
    unfold bindUserReferral
    simp only [ha, hi, hbtrim]
    rw [if_neg hai, hinv]
    simp only []
    rw [hinvee]
    simp only []
    rw [hfind1]
    simp
  · simp only []
    unfold bindUserReferral
    simp only [ha, hi, hbtrim]
    rw [if_neg hbi, hub]
    simp only []
    rw [hinvee]
    simp only []
    rw [hfind1]
    simp only []
    rw [if_neg (by simpa using hba.symm)]
  · simp only []
    unfold bindUserReferral
    simp only [ha, hi, hbtrim]
    rw [if_neg hbi, hub]
    simp only []
    rw [hinvee]
    simp only []
    rw [hfind1]
    simp only []
    rw [if_neg (by simpa using hba.symm)]

/-- Witness for `C7_bind_idempotence`: users `u1`, `u2`, `u3`; `u2`
bound to `u1` at time 10; rebinding to `u1` reports the original bind
time, rebinding to `u3` fails. -/
theorem C7_bind_idempotence_witness :
    trimId "u1" = "u1" ∧
    (bindUserReferral (bindUserReferral
        { users := [{ id := "u1"
                      systemEmail := none
                      userEmail := none
                      familyGroupName := none },
                    { id := "u2"
                      systemEmail := none
                      userEmail := none
                      familyGroupName := none },
                    { id := "u3"
                      systemEmail := none
                      userEmail := none
                      familyGroupName := none }]
          referrals := []
          rewards := []
          bonusGrants := []
          withdrawals := []
          nextId := 0 } "u1" "u2" none 10 false).1 "u1" "u2" none 20
      false).2 = .ok "u1" "u2" 10 true :=
  ⟨by decide,
    (C7_bind_idempotence
      { users := [{ id := "u1"
                    systemEmail := none
                    userEmail := none
                    familyGroupName := none },
                  { id := "u2"
                    systemEmail := none
                    userEmail := none
                    familyGroupName := none },
                  { id := "u3"
                    systemEmail := none
                    userEmail := none
                    familyGroupName := none }]
        referrals := []
        rewards := []
        bonusGrants := []
        withdrawals := []
        nextId := 0 } "u1" "u2" "u3" none 10 20 30 false false
      (by decide) (by decide) (by decide) (by decide) (by decide)
      (by decide) (by decide) (by decide) (by decide) (by decide)).2.1⟩

/-- C10: a recharge record whose source is `system_bonus` or
`refund_rollback` is never reward-eligible, so applying the referral
side-effects to such a record changes nothing — in particular the
invitee bonus recharge, which is issued with source `system_bonus` and
zero payment, can never itself create a referral reward or a second
bonus grant: the chain recharge → reward → bonus recharge terminates at
depth one. -/
theorem C10_secondary_effects_terminate :
    (∀ (reason : RechargeReason) (pay : Int),
      isReferralRewardEligible reason .systemBonus pay = false) ∧
    (∀ (reason : RechargeReason) (pay : Int),
      isReferralRewardEligible reason .refundRollback pay = false) ∧
    (∀ (db : ReferralDb) (ledger : LedgerState) (invitee : String)
        (recordId : Nat) (reason : RechargeReason)
        (source : RechargeRecordSource) (pay expireAfter occurredAt : Int),
      source = .systemBonus ∨ source = .refundRollback →
      applyReferralEffectsForRecharge db ledger invitee recordId reason
        source pay expireAfter occurredAt = (db, ledger)) := by
  have helig : ∀ (reason : RechargeReason)
      (source : RechargeRecordSource) (pay : Int),
      source = .systemBonus ∨ source = .refundRollback →
      isReferralRewardEligible reason source pay = false := by
    intro reason source pay hsrc
    unfold isReferralRewardEligible REWARD_ELIGIBLE_SOURCES
    rcases hsrc with h | h <;> subst h <;> simp
  refine ⟨fun reason pay => helig reason _ pay (Or.inl rfl),
    fun reason pay => helig reason _ pay (Or.inr rfl), ?_⟩
  intro db ledger invitee recordId reason source pay expireAfter
    occurredAt hsrc
  have hstep : createReferralRewardForRecharge db invitee recordId
      reason source pay expireAfter occurredAt =
      (db,
        { created := false
          inviterUserId := none
          rewardAmountCents := 0 }) := by
    unfold createReferralRewardForRecharge
    rw [if_pos (by simp [helig reason source pay hsrc])]
  unfold applyReferralEffectsForRecharge
  rw [hstep]
  simp only []
  rw [if_pos (by simp)]

/-- Witness for `C10_secondary_effects_terminate`: the bonus recharge's
own source `system_bonus` on an empty store and a fresh user's ledger. -/
theorem C10_secondary_effects_terminate_witness :
    (RechargeRecordSource.systemBonus = .systemBonus ∨
      RechargeRecordSource.systemBonus = .refundRollback) ∧
    applyReferralEffectsForRecharge
      { users := []
        referrals := []
        rewards := []
        bonusGrants := []
        withdrawals := []
        nextId := 0 } initialLedgerState "u1" 0 .referralReward
      .systemBonus 0 2592000 100 =
      ({ users := []
         referrals := []
         rewards := []
         bonusGrants := []
         withdrawals := []
         nextId := 0 }, initialLedgerState) :=
  ⟨Or.inl rfl,
    C10_secondary_effects_terminate.2.2
      { users := []
        referrals := []
        rewards := []
        bonusGrants := []
        withdrawals := []
        nextId := 0 } initialLedgerState "u1" 0 .referralReward
      .systemBonus 0 2592000 100 (Or.inl rfl)⟩

/-! ### Rate-limiter claims -/

lemma normalizeState_keep {s : FailureState} {now : Int}
    (h : ¬ (s.blockedUntil ≤ now ∧
      WINDOW_SECONDS < now - s.windowStartedAt)) :
    normalizeState (some s) now = some s := by
  unfold normalizeState
  dsimp only []
  rw [if_neg h]

lemma recordFailedLogin_fresh (now : Int) (h : 0 ≤ now) :
    recordFailedLogin none now =
      (some { windowStartedAt := now, failedCount := 1, blockedUntil := 0 },
        { blocked := false, retryAfterSeconds := 0 }) := by
  have hW : WINDOW_SECONDS = 600 := rfl
  have hM : MAX_FAILURES = 5 := rfl
  unfold recordFailedLogin
  rw [show normalizeState none now = none from rfl]
  dsimp only [Option.getD_none]
  rw [if_neg (show ¬ (now < (0 : Int)) by omega)]
  rw [if_neg (show ¬ (WINDOW_SECONDS < now - now) by omega)]
  dsimp only []
  rw [if_neg (show ¬ (MAX_FAILURES ≤ 0 + 1) by omega)]

lemma recordFailedLogin_step (w : Int) (c : Nat) (now : Int)
    (hb : 0 ≤ now) (hw : now - w ≤ WINDOW_SECONDS)
    (hc : c + 1 < MAX_FAILURES) :
    recordFailedLogin
        (some { windowStartedAt := w, failedCount := c, blockedUntil := 0 })
        now =
      (some
          { windowStartedAt := w
            failedCount := c + 1
            blockedUntil := 0 },
        { blocked := false, retryAfterSeconds := 0 }) := by
  unfold recordFailedLogin
  rw [normalizeState_keep (by dsimp only []; omega)]
  dsimp only [Option.getD_some]
  rw [if_neg (show ¬ (now < (0 : Int)) by omega)]
  rw [if_neg (show ¬ (WINDOW_SECONDS < now - w) by omega)]
  dsimp only []
  rw [if_neg (show ¬ (MAX_FAILURES ≤ c + 1) by omega)]

lemma recordFailedLogin_block (w : Int) (c : Nat) (now : Int)
    (hb : 0 ≤ now) (hw : now - w ≤ WINDOW_SECONDS)
    (hc : MAX_FAILURES ≤ c + 1) :
    recordFailedLogin
        (some { windowStartedAt := w, failedCount := c, blockedUntil := 0 })
        now =
      (some
          { windowStartedAt := now
            failedCount := 0
            blockedUntil := now + BLOCK_SECONDS },
        { blocked := true, retryAfterSeconds := BLOCK_SECONDS }) := by
  unfold recordFailedLogin
  rw [normalizeState_keep (by dsimp only []; omega)]
  dsimp only [Option.getD_some]
  rw [if_neg (show ¬ (now < (0 : Int)) by omega)]
  rw [if_neg (show ¬ (WINDOW_SECONDS < now - w) by omega)]
  dsimp only []
  rw [if_pos (show MAX_FAILURES ≤ c + 1 from hc)]

lemma checkLoginLimit_blocked (w bu : Int) (c : Nat) (now : Int)
    (h : now < bu) :
    checkLoginLimit
        (some
          { windowStartedAt := w
            failedCount := c
            blockedUntil := bu }) now =
      (some { windowStartedAt := w, failedCount := c, blockedUntil := bu },
        { blocked := true, retryAfterSeconds := max 1 (bu - now) }) := by
  unfold checkLoginLimit
  rw [normalizeState_keep (by dsimp only []; omega)]
  dsimp only []
  rw [if_neg (show ¬ (bu ≤ now) by omega)]

/-- C9: after `MAX_FAILURES` consecutive failed logins from a client
within the `WINDOW_SECONDS` window, the next `checkLoginLimit` during
the lockout reports blocked with a positive `retryAfterSeconds`; and a
successful login (`clearLoginLimit`) resets the client's state so the
next check is not blocked. -/
theorem C9_rate_limiter (t1 t2 t3 t4 t5 t6 : Int)
    (h0 : 0 ≤ t1) (h12 : t1 ≤ t2) (h23 : t2 ≤ t3) (h34 : t3 ≤ t4)
    (h45 : t4 ≤ t5) (hwin : t5 - t1 ≤ WINDOW_SECONDS)
    (h56 : t5 ≤ t6) (h6 : t6 < t5 + BLOCK_SECONDS) :
    (checkLoginLimit
        (recordFailedLogin (recordFailedLogin (recordFailedLogin
          (recordFailedLogin (recordFailedLogin none t1).1 t2).1 t3).1
          t4).1 t5).1 t6).2.blocked = true ∧
    0 < (checkLoginLimit
        (recordFailedLogin (recordFailedLogin (recordFailedLogin
          (recordFailedLogin (recordFailedLogin none t1).1 t2).1 t3).1
          t4).1 t5).1 t6).2.retryAfterSeconds ∧
    (∀ (st : Option FailureState) (t : Int),
      checkLoginLimit (clearLoginLimit st) t =
        (none, { blocked := false, retryAfterSeconds := 0 })) := by
  have e1 := recordFailedLogin_fresh t1 h0
  have e2 := recordFailedLogin_step t1 1 t2 (by omega) (by omega)
    (by unfold MAX_FAILURES; omega)
  have e3 := recordFailedLogin_step t1 2 t3 (by omega) (by omega)
    (by unfold MAX_FAILURES; omega)
  have e4 := recordFailedLogin_step t1 3 t4 (by omega) (by omega)
    (by unfold MAX_FAILURES; omega)
  have e5 := recordFailedLogin_block t1 4 t5 (by omega) (by omega)
    (by unfold MAX_FAILURES; omega)
  have e6 := checkLoginLimit_blocked t5 (t5 + BLOCK_SECONDS) 0 t6
    (by omega)
  rw [e1]
  simp only []
  rw [e2]
  simp only []
  rw [e3]
  simp only []
  rw [e4]
  simp only []
  rw [e5]
  simp only []
  rw [e6]
  refine ⟨rfl, ?_, fun st t => rfl⟩
  have hmax := le_max_left (1 : Int) (t5 + BLOCK_SECONDS - t6)
  show 0 < max 1 (t5 + BLOCK_SECONDS - t6)
  omega

/-- Witness for `C9_rate_limiter`: five failures at times 0..4 block
the check at time 5. -/
theorem C9_rate_limiter_witness :
    (0 : Int) ≤ 0 ∧
    (checkLoginLimit
        (recordFailedLogin (recordFailedLogin (recordFailedLogin
          (recordFailedLogin (recordFailedLogin none 0).1 1).1 2).1
          3).1 4).1 5).2.blocked = true :=
  ⟨by decide,
    (C9_rate_limiter 0 1 2 3 4 5 (by decide) (by decide) (by decide)
      (by decide) (by decide) (by decide) (by decide) (by decide)).1⟩

end VipManage
